import Mathlib

/-! Verification development for hydra_ros `visualizer_utilities.cpp`.

The C++ source is shallowly embedded: IEEE doubles become exact rationals
(`ℚ`), `size_t` arithmetic is modelled with explicit `% 2^64` where the source
can wrap, ROS message structs become Lean structures carrying the fields the
source reads or writes, and C++ code that can throw (the `dynamic_cast`
performed by `node.attributes<T>()`) returns `Except Unit`.  External
collaborators that are not part of this translation unit (the colormap
interpolation table, `getZOffset`, the node-symbol label printer, `cos`/`sin`)
are modelled as explicit function parameters or spec-modelled definitions,
each documented at its declaration. -/

namespace HydraViz

/-- geometry_msgs::Point; rational coordinates stand in for IEEE doubles. -/
structure Point where
  x : ℚ := 0
  y : ℚ := 0
  z : ℚ := 0
deriving Repr, DecidableEq

/-- spark_dsg Color: an RGB triple. `Color()` default-constructs to the
default color (all channels zero here; the exact default channel values are
irrelevant to every claim). -/
structure Color where
  r : ℕ := 0
  g : ℕ := 0
  b : ℕ := 0
deriving Repr, DecidableEq

/-- std_msgs::ColorRGBA. -/
structure ColorRGBA where
  r : ℚ := 0
  g : ℚ := 0
  b : ℚ := 0
  a : ℚ := 0
deriving Repr, DecidableEq

/-- Modelled from the spec: `dsg_utils::makeColorMsg` (colormap_utilities, not
under src/) is "the color-to-message conversion — consumed as a pure function
`Color × alpha → RGBA`".  The channel scaling is irrelevant to every claim;
only purity and the alpha slot matter. -/
def makeColorMsg (c : Color) (alpha : ℚ) : ColorRGBA :=
  { r := c.r, g := c.g, b := c.b, a := alpha }

/-- Call form `makeColorMsg(color)` with the default alpha argument of 1. -/
def makeColorMsgD (c : Color) : ColorRGBA :=
  makeColorMsg c 1

/-- Modelled from the spec: the colormap collaborator is "consumed as a pure
function", so a `ColormapConfig` is modelled as its interpolation function
from a ratio in [0,1] to a color. -/
structure ColormapConfig where
  interp : ℚ → Color

/-- C++ `dsg_utils::interpolateColorMap` applied to a colormap and a ratio. -/
def interpolateColorMap (colors : ColormapConfig) (ratio : ℚ) : Color :=
  colors.interp ratio

/-- VisualizerConfig: the global visualizer settings read by this file. -/
structure VisualizerConfig where
  places_colormap_min_distance : ℚ := 0
  places_colormap_max_distance : ℚ := 0
  layer_z_step : ℚ := 0
  collapse_layers : Bool := false
  mesh_edge_break_ratio : ℚ := 0
  mesh_layer_offset : ℚ := 0

/-- LayerConfig: the per-layer settings read by this file. -/
structure LayerConfig where
  visualize : Bool := true
  z_offset_scale : ℚ := 0
  marker_scale : ℚ := 0
  marker_alpha : ℚ := 0
  use_sphere_marker : Bool := false
  boundary_wireframe_scale : ℚ := 0
  collapse_boundary : Bool := false
  boundary_ellipse_alpha : ℚ := 0
  boundary_alpha : ℚ := 0
  boundary_use_node_color : Bool := true
  bounding_box_alpha : ℚ := 0
  bbox_wireframe_scale : ℚ := 0
  bbox_wireframe_edge_scale : ℚ := 0
  collapse_bounding_box : Bool := false
  interlayer_edge_scale : ℚ := 0
  interlayer_edge_alpha : ℚ := 0
  interlayer_edge_use_color : Bool := false
  interlayer_edge_insertion_skip : ℕ := 0
  use_edge_source : Bool := true
  intralayer_edge_scale : ℚ := 0
  intralayer_edge_alpha : ℚ := 0
  intralayer_edge_insertion_skip : ℕ := 0
  label_scale : ℚ := 0
  label_height : ℚ := 0
  add_label_jitter : Bool := false
  label_jitter_scale : ℚ := 0

/-- DynamicLayerConfig: the per-dynamic-layer settings read by this file. -/
structure DynamicLayerConfig where
  visualize : Bool := true
  visualize_interlayer_edges : Bool := true
  z_offset_scale : ℚ := 0
  edge_scale : ℚ := 0
  edge_alpha : ℚ := 0
  interlayer_edge_insertion_skip : ℕ := 0
  node_scale : ℚ := 0
  node_alpha : ℚ := 0
  node_use_sphere : Bool := false
  label_scale : ℚ := 0
  label_height : ℚ := 0

/-- Modelled from the spec: `getZOffset` lives in a header that is not under
src/.  Per spec 4.1 it is a deterministic function of the layer's offset scale
and the global visualizer settings, zero when layers are collapsed.  This is
the overload taking a raw offset scale. -/
def getZOffsetScale (layer_offset_scale : ℚ) (visualizer_config : VisualizerConfig) : ℚ :=
  if visualizer_config.collapse_layers then 0
  else layer_offset_scale * visualizer_config.layer_z_step

/-- Modelled from the spec: the `getZOffset` overload taking a LayerConfig. -/
def getZOffset (config : LayerConfig) (visualizer_config : VisualizerConfig) : ℚ :=
  getZOffsetScale config.z_offset_scale visualizer_config

/-- C++ `getRatio` (visualizer_utilities.cpp:60-66).  With finite operands the
only non-finite intermediate `ratio` the source can see is produced by a zero
denominator (`max = min`, giving NaN or an infinity in C++), so the
`std::isfinite` replacement is rendered as the zero-denominator test.  (ℚ
division by zero is 0, which the clamps leave at 0, the same value the source
substitutes.) -/
def getRatio (min max value : ℚ) : ℚ :=
  let ratio := (value - min) / (max - min)
  let ratio := if max - min = 0 then 0 else ratio
  let ratio := if ratio > 1 then 1 else ratio
  let ratio := if ratio < 0 then 0 else ratio
  ratio

/-- C++ `getDistanceColor` (visualizer_utilities.cpp:76-89). -/
def getDistanceColor (config : VisualizerConfig) (colors : ColormapConfig)
    (distance : ℚ) : Color :=
  if config.places_colormap_max_distance ≤ config.places_colormap_min_distance then
    {}
  else
    interpolateColorMap colors
      (getRatio config.places_colormap_min_distance
        config.places_colormap_max_distance distance)

/-- Function `getRatio` computes the clamp of the normalized value to [0,1]. -/
theorem getRatio_eq_clamp (min max value : ℚ) (h : min < max) :
    getRatio min max value = Max.max 0 (Min.min 1 ((value - min) / (max - min))) := by
  have hne : max - min ≠ 0 := by
    intro hc
    exact absurd (by linarith : max = min) (by intro he; exact absurd h (by rw [he]; exact lt_irrefl min))
  unfold getRatio
  simp only [hne, if_false]
  rcases le_or_lt ((value - min) / (max - min)) 1 with h1 | h1
  · rcases le_or_lt 0 ((value - min) / (max - min)) with h0 | h0
    · rw [if_neg (not_lt.mpr h1), if_neg (not_lt.mpr h0)]
      rw [min_eq_right h1, max_eq_right h0]
    · rw [if_neg (not_lt.mpr h1), if_pos h0]
      rw [min_eq_right h1, max_eq_left (le_of_lt h0)]
  · rw [if_pos h1, if_neg (by norm_num)]
    rw [min_eq_left (le_of_lt h1), max_eq_right (by norm_num : (0:ℚ) ≤ 1)]

/-- Function `getRatio` always lands in [0,1]. -/
theorem getRatio_mem_unit (min max value : ℚ) :
    0 ≤ getRatio min max value ∧ getRatio min max value ≤ 1 := by
  unfold getRatio
  set r1 := if max - min = 0 then 0 else (value - min) / (max - min) with hr1
  by_cases h1 : r1 > 1
  · simp only [h1, if_true]
    norm_num
  · simp only [h1, if_false]
    by_cases h0 : r1 < 0
    · simp only [h0, if_true]
      norm_num
    · simp only [h0, if_false]
      exact ⟨not_lt.mp h0, not_lt.mp h1⟩

/-- Claim C1: for every visualizer config, colormap and distance,
`getDistanceColor` is a total function; when
`places_colormap_max_distance ≤ places_colormap_min_distance` it returns the
default color regardless of the distance; otherwise it returns the colormap
interpolation at the ratio `(d - min) / (max - min)` clamped to [0,1] (the
non-finite case, a zero denominator, is excluded by the guard), and that
ratio lies in [0,1]. -/
theorem getDistanceColor_spec (config : VisualizerConfig) (colors : ColormapConfig)
    (d : ℚ) :
    (config.places_colormap_max_distance ≤ config.places_colormap_min_distance →
      getDistanceColor config colors d = {}) ∧
    (config.places_colormap_min_distance < config.places_colormap_max_distance →
      getDistanceColor config colors d =
        interpolateColorMap colors
          (Max.max 0 (Min.min 1 ((d - config.places_colormap_min_distance) /
            (config.places_colormap_max_distance - config.places_colormap_min_distance)))) ∧
      0 ≤ getRatio config.places_colormap_min_distance
            config.places_colormap_max_distance d ∧
      getRatio config.places_colormap_min_distance
            config.places_colormap_max_distance d ≤ 1) := by
  constructor
  · intro h
    unfold getDistanceColor
    rw [if_pos h]
  · intro h
    refine ⟨?_, (getRatio_mem_unit _ _ _).1, (getRatio_mem_unit _ _ _).2⟩
    unfold getDistanceColor
    rw [if_neg (not_le.mpr h), getRatio_eq_clamp _ _ _ h]

/-- Concrete colormap used by witnesses. -/
def cmapTest : ColormapConfig :=
  ⟨fun q => if 1 ≤ 2 * q then { r := 255 } else {}⟩

/-- Concrete visualizer config used by witnesses. -/
def visTest : VisualizerConfig :=
  { places_colormap_min_distance := 0, places_colormap_max_distance := 10 }

/-- Witness for C1 at min = 0, max = 10, d = 5. -/
theorem getDistanceColor_spec_witness :
    getDistanceColor visTest cmapTest 5 =
      interpolateColorMap cmapTest (Max.max 0 (Min.min 1 ((5 - 0) / (10 - 0)))) ∧
    getDistanceColor visTest cmapTest 5 = { r := 255 } := by
  have h := (getDistanceColor_spec visTest cmapTest 5).2 (by norm_num [visTest])
  refine ⟨h.1, ?_⟩
  simp only [getDistanceColor, getRatio, interpolateColorMap, visTest, cmapTest]
  norm_num

/-! ## Marker and scene-graph data model -/

/-- visualization_msgs::Marker type constants used in this file. -/
inductive MarkerType
  | arrow
  | cube
  | sphere
  | lineList
  | cubeList
  | sphereList
  | textViewFacing
deriving Repr, DecidableEq

/-- visualization_msgs::Marker action constants used in this file. -/
inductive MarkerAction
  | add
  | del
deriving Repr, DecidableEq

/-- visualization_msgs::Marker, restricted to the fields this file reads or
writes.  The pose is represented by its position (every `fillPoseWithIdentity`
call also sets the identity orientation, which nothing here reads back). -/
structure Marker where
  header : String := ""
  type : MarkerType := .arrow
  action : MarkerAction := .add
  id : ℕ := 0
  ns : String := ""
  scaleX : ℚ := 0
  scaleY : ℚ := 0
  scaleZ : ℚ := 0
  posePosition : Point := {}
  text : String := ""
  color : ColorRGBA := {}
  points : List Point := []
  colors : List ColorRGBA := []
deriving Repr, DecidableEq

/-- A MarkerArray is its list of markers. -/
def MarkerArray := List Marker

/-- C++ `makeDeleteMarker` (visualizer_utilities.cpp:91-100). -/
def makeDeleteMarker (header : String) (id : ℕ) (ns : String) : Marker :=
  { header := header, action := .del, id := id, ns := ns }

/-- spark_dsg NodeAttributes base class: the fields read through plain
`node.attributes()`. -/
structure BasicAttrs where
  position : Point := {}
deriving Repr, DecidableEq

/-- An oriented bounding box, reduced to what this file consumes: the 8-corner
array produced by `bbox.corners()` (external spark_dsg), indexed 0-7. -/
structure BoundingBox where
  corners : ℕ → Point

/-- spark_dsg SemanticNodeAttributes (extends NodeAttributes). -/
structure SemanticAttrs where
  base : BasicAttrs := {}
  name : String := ""
  color : Color := {}
  bounding_box : BoundingBox := ⟨fun _ => {}⟩
  semantic_label : ℕ := 0

/-- A 2x2 matrix (`ellipse_matrix_expand`). -/
structure Mat2 where
  m00 : ℚ := 0
  m01 : ℚ := 0
  m10 : ℚ := 0
  m11 : ℚ := 0
deriving Repr, DecidableEq

/-- The fields Place2dNodeAttributes adds on top of SemanticNodeAttributes. -/
structure Place2dAttrs where
  boundary : List Point := []
  ellipse_matrix_expand : Mat2 := {}
  ellipse_centroid : ℚ × ℚ := (0, 0)
  pcl_mesh_connections : List ℕ := []
deriving Repr, DecidableEq

/-- The attribute variants exercised by this file, as a tagged union:
plain NodeAttributes, SemanticNodeAttributes, and Place2dNodeAttributes
(which derives from SemanticNodeAttributes in spark_dsg, so it carries a
semantic part). -/
inductive NodeAttrs
  | basic (b : BasicAttrs)
  | semantic (s : SemanticAttrs)
  | place2d (s : SemanticAttrs) (p : Place2dAttrs)

/-- Base-class attribute access `node.attributes()`: total, every variant has
a position. -/
def NodeAttrs.position : NodeAttrs → Point
  | .basic b => b.position
  | .semantic s => s.base.position
  | .place2d s _ => s.base.position

/-- Access `node.attributes<SemanticNodeAttributes>()`: a dynamic_cast that throws
std::bad_cast (modelled as `Except.error`) when the node's attributes are not
of that kind or a subtype of it. -/
def NodeAttrs.asSemantic : NodeAttrs → Except Unit SemanticAttrs
  | .basic _ => .error ()
  | .semantic s => .ok s
  | .place2d s _ => .ok s

/-- Access `node.attributes<Place2dNodeAttributes>()`: dynamic_cast to the 2D-place
attribute kind. -/
def NodeAttrs.asPlace2d : NodeAttrs → Except Unit (SemanticAttrs × Place2dAttrs)
  | .place2d s p => .ok (s, p)
  | _ => .error ()

/-- A scene-graph node: identity, layer membership, attributes. -/
structure SGNode where
  id : ℕ := 0
  layer : ℕ := 0
  attrs : NodeAttrs := .basic {}

/-- An intra-layer scene-graph edge. -/
structure SGEdge where
  source : ℕ := 0
  target : ℕ := 0
  weight : ℚ := 0
deriving Repr, DecidableEq

/-- A static scene-graph layer: nodes and edges in iteration order, plus the
node lookup `layer.getNode` used when resolving edge endpoints (total here;
the container guarantees edge endpoints resolve). -/
structure SceneGraphLayer where
  nodes : List SGNode := []
  edges : List SGEdge := []
  getNode : ℕ → SGNode := fun _ => {}

/-- C++ `std::function` node filters may be empty; `if (filter && !filter(n))`
skips a node iff a filter is present and rejects it. -/
def FilterFunction := Option (SGNode → Bool)

/-- Whether a node passes an optional filter (a missing filter passes all). -/
def passesFilter (filter : FilterFunction) (n : SGNode) : Bool :=
  match filter with
  | none => true
  | some f => f n

/-- Node-to-color functions supplied by callers. -/
def ColorFunction := SGNode → Color

/-- Edge-color functions supplied by callers (source, target, edge,
is-source-side). -/
def EdgeColorFunction := SGNode → SGNode → SGEdge → Bool → Color

/-- C++ `fillPoseWithIdentity` (visualizer_utilities.cpp:68-72): zero
position, identity orientation. -/
def fillPoseWithIdentity (m : Marker) : Marker :=
  { m with posePosition := {} }

/-! ## Bounding-box wireframes (C2) -/

/-- C++ `getPointFromMatrix` (visualizer_utilities.cpp:243-249): read column
`col` of a 3x8 corner matrix, modelled as a function from column index to
point. -/
def getPointFromMatrix (matrix : ℕ → Point) (col : ℕ) : Point :=
  matrix col

/-- The corner remapping of `fillCornersFromBbox`
(visualizer_utilities.cpp:252). -/
def cornerRemapping : List ℕ := [0, 1, 3, 2, 4, 5, 7, 6]

/-- C++ `fillCornersFromBbox` (visualizer_utilities.cpp:251-257): column i of
the corner matrix is corner `remapping[i]` of the box. -/
def fillCornersFromBbox (bbox : BoundingBox) : ℕ → Point :=
  fun i => bbox.corners (cornerRemapping.getD i 0)

/-- C++ `addWireframeToMarker` (visualizer_utilities.cpp:259-286): for every
column c of the 8-column corner matrix, connect c to its one-bit-set
neighbors `c|1`, `c|2`, `c|4` whenever the OR changes the index. -/
def addWireframeToMarker (corners : ℕ → Point) (color : ColorRGBA)
    (marker : Marker) : Marker :=
  (List.range 8).foldl
    (fun m c =>
      let xNeighbor := c ||| 1
      let yNeighbor := c ||| 2
      let zNeighbor := c ||| 4
      let m := if c ≠ xNeighbor then
          { m with
            points := m.points ++
              [getPointFromMatrix corners c, getPointFromMatrix corners xNeighbor],
            colors := m.colors ++ [color, color] }
        else m
      let m := if c ≠ yNeighbor then
          { m with
            points := m.points ++
              [getPointFromMatrix corners c, getPointFromMatrix corners yNeighbor],
            colors := m.colors ++ [color, color] }
        else m
      let m := if c ≠ zNeighbor then
          { m with
            points := m.points ++
              [getPointFromMatrix corners c, getPointFromMatrix corners zNeighbor],
            colors := m.colors ++ [color, color] }
        else m
      m)
    marker

/-- The corner-index pairs `addWireframeToMarker` emits, in emission order. -/
def wireframePairs : List (ℕ × ℕ) :=
  (List.range 8).flatMap fun c =>
    (if c ≠ c ||| 1 then [(c, c ||| 1)] else []) ++
    (if c ≠ c ||| 2 then [(c, c ||| 2)] else []) ++
    (if c ≠ c ||| 4 then [(c, c ||| 4)] else [])

/-- Function `addWireframeToMarker` appends exactly the corner points of
`wireframePairs`, and two copies of the color per pair. -/
theorem addWireframeToMarker_eq (corners : ℕ → Point) (color : ColorRGBA)
    (m : Marker) :
    addWireframeToMarker corners color m =
      { m with
        points := m.points ++
          wireframePairs.flatMap (fun p => [corners p.1, corners p.2]),
        colors := m.colors ++ wireframePairs.flatMap (fun _ => [color, color]) } := by
  have h8 : List.range 8 = [0, 1, 2, 3, 4, 5, 6, 7] := by decide
  simp only [addWireframeToMarker, wireframePairs, getPointFromMatrix, h8]
  simp [List.foldl, List.append_assoc]

/-- Claim C2: for every bounding box (any corner matrix), the wireframe
builder emits exactly 12 edges; the emitted corner-index pairs are pairwise
distinct, contain no undirected duplicate and no self-edge, and — over the 8
corner indices — cover exactly the pairs whose indices differ in exactly one
bit (xor in {1, 2, 4}). -/
theorem addWireframeToMarker_spec (corners : ℕ → Point) (color : ColorRGBA)
    (m : Marker) :
    (addWireframeToMarker corners color m).points =
      m.points ++ wireframePairs.flatMap (fun p => [corners p.1, corners p.2]) ∧
    wireframePairs.length = 12 ∧
    wireframePairs.Nodup ∧
    (∀ p ∈ wireframePairs, ∀ q ∈ wireframePairs, (p.2, p.1) ≠ q) ∧
    (∀ p ∈ wireframePairs, p.1 ≠ p.2) ∧
    (∀ a ∈ Finset.range 8, ∀ b ∈ Finset.range 8,
      (((a, b) ∈ wireframePairs ∨ (b, a) ∈ wireframePairs) ↔
        (a ^^^ b = 1 ∨ a ^^^ b = 2 ∨ a ^^^ b = 4))) := by
  refine ⟨?_, by decide, by decide, by decide, by decide, by decide⟩
  rw [addWireframeToMarker_eq]

/-- C++ `addEdgesToCorners` (visualizer_utilities.cpp:288-305): the radial
variant connecting the four top corners to a break point. -/
def addEdgesToCorners (corners : ℕ → Point) (node_centroid : Point)
    (color : ColorRGBA) (marker : Marker) : Marker :=
  let marker :=
    { marker with colors := marker.colors ++ List.replicate 8 color }
  { marker with
    points := marker.points ++
      [node_centroid, getPointFromMatrix corners 4,
       node_centroid, getPointFromMatrix corners 5,
       node_centroid, getPointFromMatrix corners 6,
       node_centroid, getPointFromMatrix corners 7] }

/-- C++ `makeLayerWireframeBoundingBoxes` (visualizer_utilities.cpp:358-394).
The semantic-attribute cast can throw, so the result is `Except`. -/
def makeLayerWireframeBoundingBoxes (header : String) (config : LayerConfig)
    (layer : SceneGraphLayer) (visualizer_config : VisualizerConfig)
    (ns : String) (func : ColorFunction) (filter : FilterFunction) :
    Except Unit Marker :=
  let marker : Marker :=
    { header := header, type := .lineList, action := .add, id := 0, ns := ns,
      scaleX := config.bbox_wireframe_scale,
      posePosition :=
        { z := if config.collapse_bounding_box then 0
               else getZOffset config visualizer_config } }
  layer.nodes.foldlM
    (fun m node =>
      if ¬ passesFilter filter node then pure m
      else do
        let attrs ← node.attrs.asSemantic
        let color := makeColorMsg (func node) config.bounding_box_alpha
        pure (addWireframeToMarker (fillCornersFromBbox attrs.bounding_box)
          color m))
    marker

/-! ## Generic fold lemmas -/

/-- Whether an `Except` computation succeeded. -/
def exceptOk {α : Type} : Except Unit α → Bool
  | .ok _ => true
  | .error _ => false

/-- An Except-fold whose step succeeds (with total result `t`) on every list
element computes the plain fold of `t`. -/
theorem foldlM_except_ok {σ α : Type} (step : σ → α → Except Unit σ)
    (t : σ → α → σ) :
    ∀ (l : List α) (s : σ), (∀ a ∈ l, ∀ s2, step s2 a = .ok (t s2 a)) →
      l.foldlM step s = .ok (l.foldl t s) := by
  intro l
  induction l with
  | nil => intro s _; rfl
  | cons x xs ih =>
    intro s h
    have hx := h x (List.mem_cons_self x xs) s
    rw [List.foldlM_cons, hx]
    show xs.foldlM step (t s x) = _
    rw [ih (t s x) (fun a ha s2 => h a (List.mem_cons_of_mem x ha) s2)]
    rfl

/-- Successful Except-folds transport step-preserved invariants. -/
theorem foldlM_except_inv {σ α : Type} (P : σ → Prop)
    (step : σ → α → Except Unit σ)
    (hstep : ∀ s a s2, step s a = .ok s2 → P s → P s2) :
    ∀ (l : List α) (s s2 : σ), l.foldlM step s = .ok s2 → P s → P s2 := by
  intro l
  induction l with
  | nil =>
    intro s s2 h hp
    cases h
    exact hp
  | cons x xs ih =>
    intro s s2 h hp
    rw [List.foldlM_cons] at h
    cases hx : step s x with
    | error e =>
      rw [hx] at h
      cases h
    | ok s1 =>
      rw [hx] at h
      exact ih s1 s2 h (hstep s x s1 hx hp)

/-- If some list element makes the step fail from every state, the whole
Except-fold fails. -/
theorem foldlM_except_error {σ α : Type} (step : σ → α → Except Unit σ)
    (a : α) :
    ∀ (l : List α), a ∈ l → (∀ s, step s a = .error ()) →
      ∀ s, l.foldlM step s = .error () := by
  intro l
  induction l with
  | nil => intro h; cases h
  | cons x xs ih =>
    intro ha herr s
    rw [List.foldlM_cons]
    rcases List.mem_cons.mp ha with hax | hax
    · subst hax
      rw [herr s]
      rfl
    · cases hx : step s x with
      | error e =>
        cases e
        rfl
      | ok s1 =>
        show xs.foldlM step s1 = _
        exact ih hax herr s1

/-- A fold that appends per-item point and color contributions to a marker
appends their concatenations. -/
theorem foldl_marker_append {α : Type} (f : α → List Point)
    (g : α → List ColorRGBA) :
    ∀ (l : List α) (m : Marker),
      l.foldl (fun mk x =>
          { mk with points := mk.points ++ f x, colors := mk.colors ++ g x }) m =
        { m with points := m.points ++ l.flatMap f,
                 colors := m.colors ++ l.flatMap g } := by
  intro l
  induction l with
  | nil => intro m; simp
  | cons x xs ih =>
    intro m
    rw [List.foldl_cons, ih]
    simp [List.append_assoc]

/-! ## Ellipse boundary tessellation (C3) -/

/-- The value of the ellipse loop's `last_point` after inner iteration `ix`
(visualizer_utilities.cpp:129-143); `ix = 0` is the initial value, built from
column 0 of the expand matrix plus the centroid.  `cossin t` stands for
`(cos(2π t), sin(2π t))`: the source feeds `t = ix * 2 * M_PI / npts` with
`npts = 20` to `cos`/`sin`, rendered here as the turn fraction `ix / 20`. -/
def ellipseSample (cossin : ℚ → ℚ × ℚ) (s : SemanticAttrs) (p : Place2dAttrs)
    (ix : ℕ) : Point :=
  if ix = 0 then
    { x := p.ellipse_matrix_expand.m00 + p.ellipse_centroid.1,
      y := p.ellipse_matrix_expand.m10 + p.ellipse_centroid.2,
      z := s.base.position.z }
  else
    let cs := cossin ((ix : ℚ) / 20)
    { x := p.ellipse_matrix_expand.m00 * cs.1 + p.ellipse_matrix_expand.m01 * cs.2 +
           p.ellipse_centroid.1,
      y := p.ellipse_matrix_expand.m10 * cs.1 + p.ellipse_matrix_expand.m11 * cs.2 +
           p.ellipse_centroid.2,
      z := s.base.position.z }

/-- C++ `makeLayerEllipseBoundaries` (visualizer_utilities.cpp:102-150).  Each
inner iteration pushes the previous `last_point` and then the freshly computed
sample, rendered here as appending the pair `[sample (ix-1), sample ix]`.  The
Place2d attribute cast can throw, so the result is `Except`. -/
def makeLayerEllipseBoundaries (header : String) (config : LayerConfig)
    (layer : SceneGraphLayer) (visualizer_config : VisualizerConfig)
    (ns : String) (cossin : ℚ → ℚ × ℚ) : Except Unit Marker :=
  let marker : Marker :=
    { header := header, type := .lineList, action := .add, id := 0, ns := ns,
      scaleX := config.boundary_wireframe_scale,
      posePosition :=
        { z := if config.collapse_boundary then 0
               else getZOffset config visualizer_config } }
  layer.nodes.foldlM
    (fun m node => do
      let attrs ← node.attrs.asPlace2d
      if attrs.2.boundary.length ≤ 1 then pure m
      else
        let color := makeColorMsg attrs.1.color config.boundary_ellipse_alpha
        pure ((List.range' 1 20).foldl
          (fun mk ix =>
            { mk with
              points := mk.points ++
                [ellipseSample cossin attrs.1 attrs.2 (ix - 1),
                 ellipseSample cossin attrs.1 attrs.2 ix],
              colors := mk.colors ++ [color, color] })
          m))
    marker

/-- The point sequence one qualifying node contributes: 20 segments chaining
sample 0 → sample 1 → ... → sample 20. -/
def nodeEllipsePoints (cossin : ℚ → ℚ × ℚ) (s : SemanticAttrs)
    (p : Place2dAttrs) : List Point :=
  (List.range' 1 20).flatMap fun ix =>
    [ellipseSample cossin s p (ix - 1), ellipseSample cossin s p ix]

/-- The color sequence one qualifying node contributes. -/
def nodeEllipseColors (config : LayerConfig) (s : SemanticAttrs) :
    List ColorRGBA :=
  (List.range' 1 20).flatMap fun _ =>
    [makeColorMsg s.color config.boundary_ellipse_alpha,
     makeColorMsg s.color config.boundary_ellipse_alpha]

/-- Whether the ellipse builder draws a node: a 2D place whose boundary has
more than one point. -/
def place2dQualifies (n : SGNode) : Bool :=
  match n.attrs.asPlace2d with
  | .ok (_, p) => decide (1 < p.boundary.length)
  | .error _ => false

/-- The points one node contributes to the ellipse-boundary marker. -/
def ellipseNodeContribution (cossin : ℚ → ℚ × ℚ) (n : SGNode) : List Point :=
  match n.attrs.asPlace2d with
  | .ok (s, p) =>
      if p.boundary.length ≤ 1 then [] else nodeEllipsePoints cossin s p
  | .error _ => []

/-- The colors one node contributes to the ellipse-boundary marker. -/
def ellipseNodeColors (config : LayerConfig) (n : SGNode) : List ColorRGBA :=
  match n.attrs.asPlace2d with
  | .ok (s, p) =>
      if p.boundary.length ≤ 1 then [] else nodeEllipseColors config s
  | .error _ => []

/-- Total length of the ellipse point contributions of a node list. -/
theorem ellipseContribution_length (cossin : ℚ → ℚ × ℚ) (l : List SGNode) :
    (l.flatMap (ellipseNodeContribution cossin)).length =
      2 * 20 * l.countP place2dQualifies := by
  induction l with
  | nil => rfl
  | cons n t ih =>
    rw [List.flatMap_cons, List.length_append, ih, List.countP_cons]
    unfold ellipseNodeContribution place2dQualifies
    cases hn : n.attrs.asPlace2d with
    | error e => simp
    | ok sp =>
      obtain ⟨s, p⟩ := sp
      by_cases hb : p.boundary.length ≤ 1
      · have : ¬ (1 < p.boundary.length) := not_lt.mpr hb
        simp [hb, this]
      · have h1 : 1 < p.boundary.length := not_le.mp hb
        have hlen : (nodeEllipsePoints cossin s p).length = 40 := rfl
        simp [hb, h1, hlen]
        ring

/-- Contributions of a node and its colors have equal length. -/
theorem ellipseContribution_colors_length (cossin : ℚ → ℚ × ℚ)
    (config : LayerConfig) (l : List SGNode) :
    (l.flatMap (ellipseNodeColors config)).length =
      (l.flatMap (ellipseNodeContribution cossin)).length := by
  induction l with
  | nil => rfl
  | cons n t ih =>
    rw [List.flatMap_cons, List.flatMap_cons, List.length_append,
      List.length_append, ih]
    unfold ellipseNodeContribution ellipseNodeColors
    cases hn : n.attrs.asPlace2d with
    | error e => rfl
    | ok sp =>
      obtain ⟨s, p⟩ := sp
      by_cases hb : p.boundary.length ≤ 1
      · simp [hb]
      · simp [hb]
        rfl

/-- Claim C3: when every node of the layer carries Place2d attributes, the
ellipse builder succeeds; the marker's points are the concatenated per-node
contributions, so nodes with boundary length ≤ 1 contribute zero segments and
each node with boundary length > 1 contributes exactly 20 segments (2 points
each), for `2 * 20 * N` points in total; per-vertex colors march with the
points; each qualifying node's chain starts at sample 0 and ends at sample
20, which equals sample 0 whenever `cossin 1 = (1, 0)` (cos 2π = 1,
sin 2π = 0), closing the chain back to its first sampled point. -/
theorem makeLayerEllipseBoundaries_spec (header : String) (config : LayerConfig)
    (layer : SceneGraphLayer) (visualizer_config : VisualizerConfig)
    (ns : String) (cossin : ℚ → ℚ × ℚ)
    (hcast : ∀ n ∈ layer.nodes, exceptOk n.attrs.asPlace2d = true) :
    ∃ m, makeLayerEllipseBoundaries header config layer visualizer_config ns
            cossin = .ok m ∧
      m.points = layer.nodes.flatMap (ellipseNodeContribution cossin) ∧
      m.points.length = 2 * 20 * layer.nodes.countP place2dQualifies ∧
      m.colors.length = m.points.length ∧
      (∀ s p, (nodeEllipsePoints cossin s p).length = 2 * 20) ∧
      (∀ s p, (nodeEllipsePoints cossin s p).head? =
        some (ellipseSample cossin s p 0)) ∧
      (∀ s p, (nodeEllipsePoints cossin s p).getLast? =
        some (ellipseSample cossin s p 20)) ∧
      (cossin 1 = (1, 0) →
        ∀ s p, ellipseSample cossin s p 20 = ellipseSample cossin s p 0) := by
  have hstep : ∀ n ∈ layer.nodes, ∀ m : Marker,
      (do
        let attrs ← n.attrs.asPlace2d
        if attrs.2.boundary.length ≤ 1 then pure m
        else
          let color := makeColorMsg attrs.1.color config.boundary_ellipse_alpha
          pure ((List.range' 1 20).foldl
            (fun mk ix =>
              { mk with
                points := mk.points ++
                  [ellipseSample cossin attrs.1 attrs.2 (ix - 1),
                   ellipseSample cossin attrs.1 attrs.2 ix],
                colors := mk.colors ++ [color, color] })
            m) : Except Unit Marker) =
      .ok { m with
            points := m.points ++ ellipseNodeContribution cossin n,
            colors := m.colors ++ ellipseNodeColors config n } := by
    intro n hn m
    cases hatt : n.attrs.asPlace2d with
    | error e =>
      have := hcast n hn
      rw [hatt] at this
      cases this
    | ok sp =>
      obtain ⟨s, p⟩ := sp
      show Except.ok (s, p) >>= _ = _
      rw [show ∀ f : SemanticAttrs × Place2dAttrs → Except Unit Marker,
          Except.ok (s, p) >>= f = f (s, p) from fun _ => rfl]
      by_cases hb : p.boundary.length ≤ 1
      · simp only [hb, if_true, ellipseNodeContribution, ellipseNodeColors, hatt]
        simp only [List.append_nil]
        rfl
      · simp only [hb, if_false, ellipseNodeContribution, ellipseNodeColors, hatt]
        rw [foldl_marker_append
          (fun ix => [ellipseSample cossin s p (ix - 1), ellipseSample cossin s p ix])
          (fun _ => [makeColorMsg s.color config.boundary_ellipse_alpha,
                     makeColorMsg s.color config.boundary_ellipse_alpha])]
        rfl
  unfold makeLayerEllipseBoundaries
  rw [foldlM_except_ok _
    (fun m n =>
      { m with points := m.points ++ ellipseNodeContribution cossin n,
               colors := m.colors ++ ellipseNodeColors config n })
    layer.nodes _ hstep]
  rw [foldl_marker_append (ellipseNodeContribution cossin)
    (ellipseNodeColors config)]
  refine ⟨_, rfl, by simp, ?_, ?_, fun s p => rfl, fun s p => rfl, fun s p => rfl, ?_⟩
  · show ([] ++ layer.nodes.flatMap (ellipseNodeContribution cossin)).length = _
    rw [List.nil_append, ellipseContribution_length]
  · show ([] ++ layer.nodes.flatMap (ellipseNodeColors config)).length =
      ([] ++ layer.nodes.flatMap (ellipseNodeContribution cossin)).length
    rw [List.nil_append, List.nil_append,
      ellipseContribution_colors_length cossin config]
  · intro h s p
    have h20 : ((20 : ℕ) : ℚ) / 20 = 1 := by norm_num
    simp [ellipseSample, h20, h]

/-- Witness layer for C3: boundary lengths 0, 1 and 4 — only the third node
qualifies. -/
def layerC3 : SceneGraphLayer :=
  { nodes :=
      [{ id := 1, layer := 2, attrs := .place2d {} { boundary := [] } },
       { id := 2, layer := 2, attrs := .place2d {} { boundary := [{}] } },
       { id := 3, layer := 2,
         attrs := .place2d {}
           { boundary := [{}, { x := 1 }, { y := 1 }, { x := 1, y := 1 }] } }] }

/-- Witness trig sampler: the constant (1, 0) — a valid instantiation of the
abstract cos/sin parameter that satisfies `cossin 1 = (1, 0)`. -/
def cossinC3 : ℚ → ℚ × ℚ := fun _ => (1, 0)

/-- Witness for C3 on `layerC3`: one qualifying node, 40 points. -/
theorem makeLayerEllipseBoundaries_spec_witness :
    (∀ n ∈ layerC3.nodes, exceptOk n.attrs.asPlace2d = true) ∧
    ∃ m, makeLayerEllipseBoundaries "h" {} layerC3 {} "places" cossinC3 = .ok m ∧
      m.points.length = 40 := by
  have hc : ∀ n ∈ layerC3.nodes, exceptOk n.attrs.asPlace2d = true := by decide
  obtain ⟨m, hok, -, hlen, -, -, -, -, -⟩ :=
    makeLayerEllipseBoundaries_spec "h" {} layerC3 {} "places" cossinC3 hc
  refine ⟨hc, m, hok, ?_⟩
  rw [hlen, show List.countP place2dQualifies layerC3.nodes = 1 from by decide]

/-! ## Mesh-connection fans (C7) -/

/-- The external mesh collaborator: vertex count and position-by-index. -/
structure Mesh where
  vertices : List Point := []

/-- C++ `mesh->numVertices()`. -/
def Mesh.numVertices (m : Mesh) : ℕ := m.vertices.length

/-- C++ `mesh->pos(i)`: vertex position lookup; every caller here checks the
index against `numVertices` first. -/
def Mesh.pos (m : Mesh) (i : ℕ) : Point := m.vertices.getD i {}

/-- An inter-layer edge of the dynamic scene graph (edge map value). -/
structure InterEdge where
  source : ℕ := 0
  target : ℕ := 0

/-- The DynamicSceneGraph container as consumed here: node lookup, the two
inter-layer edge maps in iteration order, the dynamic-node classifier, and
the optional mesh. -/
structure DynamicSceneGraph where
  getNode : ℕ → SGNode := fun _ => {}
  interlayer_edges : List InterEdge := []
  dynamic_interlayer_edges : List InterEdge := []
  isDynamic : ℕ → Bool := fun _ => false
  mesh : Option Mesh := none

/-- The color both endpoints of every mesh-fan segment receive
(visualizer_utilities.cpp:883-891 and 914-924; the two copies of this `if`
in the source have identical bodies). -/
def meshEdgeColor (config : LayerConfig) (s : SemanticAttrs) : ColorRGBA :=
  if config.interlayer_edge_use_color then
    makeColorMsg s.color config.interlayer_edge_alpha
  else
    makeColorMsg {} config.interlayer_edge_alpha

/-- The fan's break point (`center_point`, visualizer_utilities.cpp:871-874). -/
def meshCenterPoint (config : LayerConfig) (visualizer_config : VisualizerConfig)
    (s : SemanticAttrs) : Point :=
  { s.base.position with
    z := s.base.position.z +
      visualizer_config.mesh_edge_break_ratio * getZOffset config visualizer_config }

/-- The node's offset centroid (`centroid_location`,
visualizer_utilities.cpp:876-878). -/
def meshCentroidLocation (config : LayerConfig)
    (visualizer_config : VisualizerConfig) (s : SemanticAttrs) : Point :=
  { s.base.position with
    z := s.base.position.z + getZOffset config visualizer_config }

/-- A drawn mesh vertex (visualizer_utilities.cpp:904-909): mesh position,
lifted by the mesh layer offset unless layers are collapsed. -/
def meshVertexPoint (visualizer_config : VisualizerConfig) (mesh : Mesh)
    (midx : ℕ) : Point :=
  let vertex_pos := mesh.pos midx
  if ¬ visualizer_config.collapse_layers then
    { vertex_pos with z := vertex_pos.z + visualizer_config.mesh_layer_offset }
  else vertex_pos

/-- One iteration of the fan loop (visualizer_utilities.cpp:893-925): `i` is
the 1-based running counter, incremented for every index; positions failing
the stride test or out of the mesh's vertex range contribute nothing. -/
def meshFanStep (config : LayerConfig) (visualizer_config : VisualizerConfig)
    (mesh : Mesh) (center_point : Point) (color : ColorRGBA)
    (acc : ℕ × Marker) (midx : ℕ) : ℕ × Marker :=
  let i := acc.1 + 1
  if (i - 1) % (config.interlayer_edge_insertion_skip + 1) ≠ 0 then (i, acc.2)
  else if mesh.numVertices ≤ midx then (i, acc.2)
  else
    (i, { acc.2 with
          points := acc.2.points ++
            [center_point, meshVertexPoint visualizer_config mesh midx],
          colors := acc.2.colors ++ [color, color] })

/-- C++ `makeMeshEdgesMarker` (visualizer_utilities.cpp:842-929). -/
def makeMeshEdgesMarker (header : String) (config : LayerConfig)
    (visualizer_config : VisualizerConfig) (graph : DynamicSceneGraph)
    (layer : SceneGraphLayer) (ns : String) : Except Unit Marker :=
  let marker : Marker :=
    { header := header, type := .lineList, action := .add, id := 0, ns := ns,
      scaleX := config.interlayer_edge_scale, posePosition := {} }
  match graph.mesh with
  | none => .ok marker
  | some mesh =>
    layer.nodes.foldlM
      (fun m node => do
        let attrs ← node.attrs.asPlace2d
        let mesh_edge_indices := attrs.2.pcl_mesh_connections
        if mesh_edge_indices.isEmpty then pure m
        else
          let center_point := meshCenterPoint config visualizer_config attrs.1
          let centroid_location :=
            meshCentroidLocation config visualizer_config attrs.1
          let color := meshEdgeColor config attrs.1
          let m :=
            { m with points := m.points ++ [centroid_location, center_point],
                     colors := m.colors ++ [color, color] }
          pure (mesh_edge_indices.foldl
            (meshFanStep config visualizer_config mesh center_point color)
            (0, m)).2)
      marker

/-- Points contributed by fan-loop position `j` holding mesh index `midx`. -/
def meshFanPiece (config : LayerConfig) (visualizer_config : VisualizerConfig)
    (mesh : Mesh) (center_point : Point) (j midx : ℕ) : List Point :=
  if j % (config.interlayer_edge_insertion_skip + 1) ≠ 0 then []
  else if mesh.numVertices ≤ midx then []
  else [center_point, meshVertexPoint visualizer_config mesh midx]

/-- Colors contributed by fan-loop position `j` holding mesh index `midx`. -/
def meshFanColors (config : LayerConfig) (mesh : Mesh) (color : ColorRGBA)
    (j midx : ℕ) : List ColorRGBA :=
  if j % (config.interlayer_edge_insertion_skip + 1) ≠ 0 then []
  else if mesh.numVertices ≤ midx then []
  else [color, color]

/-- The fan loop appends the pieces of the enumerated index list. -/
theorem meshFanStep_foldl (config : LayerConfig)
    (visualizer_config : VisualizerConfig) (mesh : Mesh) (cp : Point)
    (color : ColorRGBA) :
    ∀ (l : List ℕ) (c : ℕ) (m : Marker),
      l.foldl (meshFanStep config visualizer_config mesh cp color) (c, m) =
        (c + l.length,
         { m with
           points := m.points ++ (l.enumFrom c).flatMap
             (fun q => meshFanPiece config visualizer_config mesh cp q.1 q.2),
           colors := m.colors ++ (l.enumFrom c).flatMap
             (fun q => meshFanColors config mesh color q.1 q.2) }) := by
  intro l
  induction l with
  | nil =>
    intro c m
    simp
  | cons x xs ih =>
    intro c m
    rw [List.foldl_cons]
    have hstep : meshFanStep config visualizer_config mesh cp color (c, m) x =
        (c + 1,
         { m with
           points := m.points ++
             meshFanPiece config visualizer_config mesh cp c x,
           colors := m.colors ++ meshFanColors config mesh color c x }) := by
      unfold meshFanStep meshFanPiece meshFanColors
      dsimp only
      simp only [Nat.add_sub_cancel]
      by_cases h1 : c % (config.interlayer_edge_insertion_skip + 1) ≠ 0
      · rw [if_pos h1, if_pos h1, if_pos h1, List.append_nil, List.append_nil]
      · rw [if_neg h1, if_neg h1, if_neg h1]
        by_cases h2 : mesh.numVertices ≤ x
        · rw [if_pos h2, if_pos h2, if_pos h2, List.append_nil, List.append_nil]
        · rw [if_neg h2, if_neg h2, if_neg h2]
    rw [hstep, ih]
    simp only [List.enumFrom_cons, List.flatMap_cons, List.append_assoc,
      List.length_cons, Prod.mk.injEq]
    exact ⟨by omega, trivial⟩

/-- The point sequence one Place2d node contributes to the mesh-fan marker:
nothing when it has no mesh connections, otherwise the centroid-to-break
segment followed by one segment per stride-selected in-range mesh index. -/
def meshNodeSegments (config : LayerConfig) (visualizer_config : VisualizerConfig)
    (mesh : Mesh) (s : SemanticAttrs) (p : Place2dAttrs) : List Point :=
  if p.pcl_mesh_connections.isEmpty then []
  else
    meshCentroidLocation config visualizer_config s ::
      meshCenterPoint config visualizer_config s ::
      (p.pcl_mesh_connections.enumFrom 0).flatMap
        (fun q => meshFanPiece config visualizer_config mesh
          (meshCenterPoint config visualizer_config s) q.1 q.2)

/-- The matching per-vertex color sequence. -/
def meshNodeSegmentColors (config : LayerConfig) (mesh : Mesh)
    (s : SemanticAttrs) (p : Place2dAttrs) : List ColorRGBA :=
  if p.pcl_mesh_connections.isEmpty then []
  else
    meshEdgeColor config s :: meshEdgeColor config s ::
      (p.pcl_mesh_connections.enumFrom 0).flatMap
        (fun q => meshFanColors config mesh (meshEdgeColor config s) q.1 q.2)

/-- Points one node contributes to the mesh-fan marker. -/
def meshNodeContribution (config : LayerConfig)
    (visualizer_config : VisualizerConfig) (mesh : Mesh) (n : SGNode) :
    List Point :=
  match n.attrs.asPlace2d with
  | .ok (s, p) => meshNodeSegments config visualizer_config mesh s p
  | .error _ => []

/-- Colors one node contributes to the mesh-fan marker. -/
def meshNodeContributionColors (config : LayerConfig) (mesh : Mesh)
    (n : SGNode) : List ColorRGBA :=
  match n.attrs.asPlace2d with
  | .ok (s, p) => meshNodeSegmentColors config mesh s p
  | .error _ => []

/-- Two flatMaps over one list whose pieces have equal lengths have equal
lengths. -/
theorem flatMap_length_congr {α : Type} {β : Type} {γ : Type}
    (f : α → List β) (g : α → List γ) :
    ∀ l : List α, (∀ a ∈ l, (f a).length = (g a).length) →
      (l.flatMap f).length = (l.flatMap g).length := by
  intro l
  induction l with
  | nil => intro _; rfl
  | cons x xs ih =>
    intro h
    rw [List.flatMap_cons, List.flatMap_cons, List.length_append,
      List.length_append, h x (List.mem_cons_self x xs),
      ih fun a ha => h a (List.mem_cons_of_mem x ha)]

/-- A fan piece and its color piece have equal length. -/
theorem meshFanPiece_colors_length (config : LayerConfig)
    (visualizer_config : VisualizerConfig) (mesh : Mesh) (cp : Point)
    (color : ColorRGBA) (j midx : ℕ) :
    (meshFanPiece config visualizer_config mesh cp j midx).length =
      (meshFanColors config mesh color j midx).length := by
  unfold meshFanPiece meshFanColors
  by_cases h1 : j % (config.interlayer_edge_insertion_skip + 1) ≠ 0
  · rw [if_pos h1, if_pos h1]
    rfl
  · rw [if_neg h1, if_neg h1]
    by_cases h2 : mesh.numVertices ≤ midx
    · rw [if_pos h2, if_pos h2]
      rfl
    · rw [if_neg h2, if_neg h2]
      rfl

/-- Claim C7: (i) when the graph has no mesh at all the fan builder returns a
valid empty batch; (ii) with a mesh present (and Place2d-kinded nodes) it
succeeds and its points are the concatenated per-node contributions; a node
whose mesh-connection list is nonempty — e.g. one carrying 3 indices — but
whose mesh is empty contributes exactly the centroid-to-break segment and
nothing else; and any mesh-connection index out of the mesh's vertex range
contributes no segment. -/
theorem makeMeshEdgesMarker_spec (header : String) (config : LayerConfig)
    (visualizer_config : VisualizerConfig) (graph : DynamicSceneGraph)
    (layer : SceneGraphLayer) (ns : String)
    (hcast : ∀ n ∈ layer.nodes, exceptOk n.attrs.asPlace2d = true) :
    (graph.mesh = none →
      ∃ m, makeMeshEdgesMarker header config visualizer_config graph layer ns =
          .ok m ∧ m.points = [] ∧ m.colors = []) ∧
    (∀ mesh, graph.mesh = some mesh →
      ∃ m, makeMeshEdgesMarker header config visualizer_config graph layer ns =
          .ok m ∧
        m.points = layer.nodes.flatMap
          (meshNodeContribution config visualizer_config mesh) ∧
        m.colors.length = m.points.length ∧
        (∀ s p, mesh.vertices = [] → p.pcl_mesh_connections.isEmpty = false →
          meshNodeSegments config visualizer_config mesh s p =
            [meshCentroidLocation config visualizer_config s,
             meshCenterPoint config visualizer_config s]) ∧
        (∀ cp j midx, mesh.numVertices ≤ midx →
          meshFanPiece config visualizer_config mesh cp j midx = [])) := by
  constructor
  · intro h
    unfold makeMeshEdgesMarker
    rw [h]
    exact ⟨_, rfl, rfl, rfl⟩
  · intro mesh h
    have hstep : ∀ n ∈ layer.nodes, ∀ m : Marker,
        (do
          let attrs ← n.attrs.asPlace2d
          let mesh_edge_indices := attrs.2.pcl_mesh_connections
          if mesh_edge_indices.isEmpty then pure m
          else
            let center_point := meshCenterPoint config visualizer_config attrs.1
            let centroid_location :=
              meshCentroidLocation config visualizer_config attrs.1
            let color := meshEdgeColor config attrs.1
            let m2 :=
              { m with
                points := m.points ++ [centroid_location, center_point],
                colors := m.colors ++ [color, color] }
            pure (mesh_edge_indices.foldl
              (meshFanStep config visualizer_config mesh center_point color)
              (0, m2)).2 : Except Unit Marker) =
        .ok { m with
              points := m.points ++
                meshNodeContribution config visualizer_config mesh n,
              colors := m.colors ++
                meshNodeContributionColors config mesh n } := by
      intro n hn m
      cases hatt : n.attrs.asPlace2d with
      | error e =>
        have := hcast n hn
        rw [hatt] at this
        cases this
      | ok sp =>
        obtain ⟨s, p⟩ := sp
        show Except.ok (s, p) >>= _ = _
        rw [show ∀ f : SemanticAttrs × Place2dAttrs → Except Unit Marker,
            Except.ok (s, p) >>= f = f (s, p) from fun _ => rfl]
        dsimp only
        unfold meshNodeContribution meshNodeContributionColors
        rw [hatt]
        dsimp only
        unfold meshNodeSegments meshNodeSegmentColors
        by_cases hemp : p.pcl_mesh_connections.isEmpty
        · rw [if_pos hemp, if_pos hemp, if_pos hemp]
          simp only [List.append_nil]
          rfl
        · rw [if_neg hemp, if_neg hemp, if_neg hemp,
            meshFanStep_foldl config visualizer_config mesh
              (meshCenterPoint config visualizer_config s)
              (meshEdgeColor config s) p.pcl_mesh_connections 0]
          dsimp only
          rw [List.append_assoc, List.append_assoc]
          rfl
    unfold makeMeshEdgesMarker
    rw [h]
    dsimp only
    rw [foldlM_except_ok _
      (fun m n =>
        { m with
          points := m.points ++
            meshNodeContribution config visualizer_config mesh n,
          colors := m.colors ++ meshNodeContributionColors config mesh n })
      layer.nodes _ hstep]
    rw [foldl_marker_append (meshNodeContribution config visualizer_config mesh)
      (meshNodeContributionColors config mesh)]
    refine ⟨_, rfl, rfl, ?_, ?_, ?_⟩
    · show ([] ++ layer.nodes.flatMap (meshNodeContributionColors config mesh)).length =
        ([] ++ layer.nodes.flatMap
          (meshNodeContribution config visualizer_config mesh)).length
      rw [List.nil_append, List.nil_append]
      refine flatMap_length_congr _ _ layer.nodes fun n _ => ?_
      unfold meshNodeContribution meshNodeContributionColors
      cases hatt : n.attrs.asPlace2d with
      | error e => rfl
      | ok sp =>
        obtain ⟨s, p⟩ := sp
        dsimp only
        unfold meshNodeSegments meshNodeSegmentColors
        by_cases hemp : p.pcl_mesh_connections.isEmpty
        · rw [if_pos hemp, if_pos hemp]
          rfl
        · rw [if_neg hemp, if_neg hemp]
          simp only [List.length_cons]
          rw [flatMap_length_congr _ _ _ fun q _ =>
            (meshFanPiece_colors_length config visualizer_config mesh
              (meshCenterPoint config visualizer_config s)
              (meshEdgeColor config s) q.1 q.2).symm]
    · intro s p hv hne
      unfold meshNodeSegments
      rw [if_neg (by rw [hne]; exact Bool.false_ne_true)]
      have hall : ∀ q ∈ p.pcl_mesh_connections.enumFrom 0,
          meshFanPiece config visualizer_config mesh
            (meshCenterPoint config visualizer_config s) q.1 q.2 = [] := by
        intro q _
        unfold meshFanPiece
        by_cases h1 : q.1 % (config.interlayer_edge_insertion_skip + 1) ≠ 0
        · rw [if_pos h1]
        · rw [if_neg h1, if_pos (by simp [Mesh.numVertices, hv])]
      rw [List.flatMap_eq_nil_iff.mpr hall]
    · intro cp j midx hout
      unfold meshFanPiece
      by_cases h1 : j % (config.interlayer_edge_insertion_skip + 1) ≠ 0
      · rw [if_pos h1]
      · rw [if_neg h1, if_pos hout]

/-- Witness layer for C7: one node carrying 3 mesh-connection indices. -/
def layerC7 : SceneGraphLayer :=
  { nodes :=
      [{ id := 7, layer := 3,
         attrs := .place2d {} { pcl_mesh_connections := [0, 1, 2] } }] }

/-- Witness graph with no mesh. -/
def graphC7none : DynamicSceneGraph := { mesh := none }

/-- Witness graph with a present but empty mesh. -/
def graphC7empty : DynamicSceneGraph := { mesh := some { vertices := [] } }

/-- Witness for C7: an absent mesh gives an empty valid batch; an empty mesh
with a 3-index node gives exactly the break-point segment (2 points). -/
theorem makeMeshEdgesMarker_spec_witness :
    (∀ n ∈ layerC7.nodes, exceptOk n.attrs.asPlace2d = true) ∧
    (∃ m, makeMeshEdgesMarker "h" {} {} graphC7none layerC7 "mesh" = .ok m ∧
      m.points = []) ∧
    (∃ m, makeMeshEdgesMarker "h" {} {} graphC7empty layerC7 "mesh" = .ok m ∧
      m.points.length = 2) := by
  have hc : ∀ n ∈ layerC7.nodes, exceptOk n.attrs.asPlace2d = true := by decide
  obtain ⟨m1, hok1, hp1, -⟩ :=
    (makeMeshEdgesMarker_spec "h" {} {} graphC7none layerC7 "mesh" hc).1 rfl
  obtain ⟨m2, hok2, hp2, -, -, -⟩ :=
    (makeMeshEdgesMarker_spec "h" {} {} graphC7empty layerC7 "mesh" hc).2
      { vertices := [] } rfl
  refine ⟨hc, ⟨m1, hok1, hp1⟩, ⟨m2, hok2, ?_⟩⟩
  rw [hp2]
  rfl

/-! ## Inter-layer edge aggregation (C4, C5) -/

/-- A std::map of per-layer configs as consumed here: membership test
(`map.count`) and a total lookup `get`.  Call sites that guard the lookup by
`count` (short-circuit `&&`) read `get` only behind `hasKey`, so the total
`get` is faithful there; the unguarded `map.at` calls of the dynamic edge
builder go through the throwing `atKey` below instead. -/
structure ConfigMap (α : Type) where
  hasKey : ℕ → Bool := fun _ => true
  get : ℕ → α

/-- C++ `std::map::at`: the mapped value for a present key, and a thrown
`std::out_of_range` (rendered as `Except.error`) for an absent one. -/
def ConfigMap.atKey {α : Type} (m : ConfigMap α) (k : ℕ) : Except Unit α :=
  if m.hasKey k then .ok (m.get k) else .error ()

/-- An `atKey` lookup at a present key is the plain lookup. -/
theorem atKey_present {α : Type} (m : ConfigMap α) (k : ℕ)
    (h : m.hasKey k = true) : m.atKey k = .ok (m.get k) := by
  unfold ConfigMap.atKey
  rw [if_pos h]

/-- Reducing an `Except` bind on an `ok` head. -/
theorem exbind_ok {α β : Type} (x : α) (f : α → Except Unit β) :
    (Except.ok x : Except Unit α) >>= f = f x := rfl

/-- Reducing an `Except` bind on a `pure` head. -/
theorem expure_bind {α β : Type} (x : α) (f : α → Except Unit β) :
    (pure x : Except Unit α) >>= f = f x := rfl

/-- C++ `makeNewEdgeList` (visualizer_utilities.cpp:649-663). -/
def makeNewEdgeList (header : String) (config : LayerConfig)
    ( ns_prefix : String) (source target : ℕ) : Marker :=
  { header := header, type := .lineList, action := .add, id := 0,
    ns := ns_prefix ++ toString source ++ "_" ++ toString target,
    scaleX := config.interlayer_edge_scale, posePosition := {} }

/-- C++ `shouldVisualize` (visualizer_utilities.cpp:667-678). -/
def shouldVisualize (graph : DynamicSceneGraph) (node : SGNode)
    (configs : ConfigMap LayerConfig)
    (dynamic_configs : ConfigMap DynamicLayerConfig) : Bool :=
  if graph.isDynamic node.id then
    dynamic_configs.hasKey node.layer &&
      (dynamic_configs.get node.layer).visualize &&
      (dynamic_configs.get node.layer).visualize_interlayer_edges
  else
    configs.hasKey node.layer && (configs.get node.layer).visualize

/-- C++ `getConfigLayer` (visualizer_utilities.cpp:680-688). -/
def getConfigLayer (graph : DynamicSceneGraph) (source target : SGNode) : ℕ :=
  if graph.isDynamic source.id then source.layer else target.layer

/-- std::map insert-or-assign (`map[k] = v`) on an association list. -/
def aset {α : Type} : List (ℕ × α) → ℕ → α → List (ℕ × α)
  | [], k, v => [(k, v)]
  | (k2, v2) :: t, k, v =>
      if k2 = k then (k, v) :: t else (k2, v2) :: aset t k v

/-- The mutable state of one edge-aggregation pass: the per-source-layer
marker map and the per-source-layer skip counters (both std::map). -/
structure EdgeListState where
  layer_markers : List (ℕ × Marker) := []
  num_since_last_insertion : List (ℕ × ℕ) := []

/-- One iteration of the `makeGraphEdgeMarkers` loop
(visualizer_utilities.cpp:763-834).  Both maps are keyed by `source.layer`;
`num_since_last_insertion[...]` reads default to 0 for absent keys
(`operator[]`; by construction the key is present whenever read).  The
semantic-color casts of the color-resolution block can throw, so the step is
`Except`; in C++ a throw there escapes the whole call, discarding the
half-built state, which matches the `Except` propagation. -/
def graphEdgeStep (header : String) (configs : ConfigMap LayerConfig)
    (visualizer_config : VisualizerConfig) ( ns_prefix : String)
    (filter : FilterFunction) (graph : DynamicSceneGraph)
    (st : EdgeListState) (edge : InterEdge) : Except Unit EdgeListState :=
  let source := graph.getNode edge.source
  let target := graph.getNode edge.target
  if ¬ passesFilter filter source then pure st
  else if ¬ passesFilter filter target then pure st
  else if ¬ (configs.hasKey source.layer && configs.hasKey target.layer) then
    pure st
  else if ¬ (configs.get source.layer).visualize then pure st
  else if ¬ (configs.get target.layer).visualize then pure st
  else
    let num_between_insertions :=
      (configs.get source.layer).interlayer_edge_insertion_skip
    let st :=
      if (List.lookup source.layer st.layer_markers).isNone then
        { layer_markers :=
            aset st.layer_markers source.layer
              (makeNewEdgeList header (configs.get source.layer) ns_prefix
                source.layer target.layer),
          -- make sure we always draw at least one edge
          num_since_last_insertion :=
            aset st.num_since_last_insertion source.layer
              num_between_insertions }
      else st
    if (List.lookup source.layer st.num_since_last_insertion).getD 0 ≥
        num_between_insertions then do
      let source_point : Point :=
        { source.attrs.position with
          z := source.attrs.position.z +
            getZOffset (configs.get source.layer) visualizer_config }
      let target_point : Point :=
        { target.attrs.position with
          z := target.attrs.position.z +
            getZOffset (configs.get target.layer) visualizer_config }
      let edge_color ←
        if (configs.get source.layer).interlayer_edge_use_color then
          if (configs.get source.layer).use_edge_source then
            source.attrs.asSemantic.map (fun a => a.color)
          else
            target.attrs.asSemantic.map (fun a => a.color)
        else
          pure ({} : Color)
      let marker := (List.lookup source.layer st.layer_markers).getD {}
      let marker :=
        { marker with
          points := marker.points ++ [source_point, target_point],
          colors := marker.colors ++
            [makeColorMsg edge_color
              (configs.get source.layer).intralayer_edge_alpha,
             makeColorMsg edge_color
              (configs.get source.layer).intralayer_edge_alpha] }
      pure { layer_markers := aset st.layer_markers source.layer marker,
             num_since_last_insertion :=
               aset st.num_since_last_insertion source.layer 0 }
    else
      pure { st with
             num_since_last_insertion :=
               aset st.num_since_last_insertion source.layer
                 ((List.lookup source.layer st.num_since_last_insertion).getD 0
                   + 1) }

/-- C++ `makeGraphEdgeMarkers` (visualizer_utilities.cpp:753-840).  The C++
final loop copies the std::map values in ascending key order; here the
association list keeps first-insertion order — the same collection of
batches, one per key, which is all the claims about this builder state. -/
def makeGraphEdgeMarkers (header : String) (graph : DynamicSceneGraph)
    (configs : ConfigMap LayerConfig) (visualizer_config : VisualizerConfig)
    ( ns_prefix : String) (filter : FilterFunction) :
    Except Unit (List Marker) := do
  let st ← graph.interlayer_edges.foldlM
    (graphEdgeStep header configs visualizer_config ns_prefix filter graph)
    {}
  pure (st.layer_markers.map Prod.snd)

/-- One iteration of the `makeDynamicGraphEdgeMarkers` loop
(visualizer_utilities.cpp:701-744), idealized to total config lookups.  No
per-vertex colors are pushed; the batch color is set once at creation.  The
loop's unguarded `map::at` lookups can throw, so this total step is only the
key-present reduct of the faithful `dynamicGraphEdgeStepE` below: the two
agree exactly when every `at` lookup the edge reaches succeeds
(`dynamicGraphEdgeStepE_ok`), and the invariant arguments run over this
reduct. -/
def dynamicGraphEdgeStep (header : String) (configs : ConfigMap LayerConfig)
    (dynamic_configs : ConfigMap DynamicLayerConfig)
    (visualizer_config : VisualizerConfig) ( ns_prefix : String)
    (graph : DynamicSceneGraph) (st : EdgeListState) (edge : InterEdge) :
    EdgeListState :=
  let source := graph.getNode edge.source
  let target := graph.getNode edge.target
  if ¬ shouldVisualize graph source configs dynamic_configs then st
  else if ¬ shouldVisualize graph target configs dynamic_configs then st
  else
    let config := dynamic_configs.get (getConfigLayer graph source target)
    let num_between_insertions := config.interlayer_edge_insertion_skip
    let st :=
      if (List.lookup source.layer st.layer_markers).isNone then
        { layer_markers :=
            aset st.layer_markers source.layer
              { makeNewEdgeList header (configs.get source.layer) ns_prefix
                  source.layer target.layer with
                color := makeColorMsg {} config.edge_alpha },
          -- make sure we always draw at least one edge
          num_since_last_insertion :=
            aset st.num_since_last_insertion source.layer
              num_between_insertions }
      else st
    if (List.lookup source.layer st.num_since_last_insertion).getD 0 ≥
        num_between_insertions then
      let source_point : Point :=
        { source.attrs.position with
          z := source.attrs.position.z +
            getZOffset (configs.get source.layer) visualizer_config }
      let target_point : Point :=
        { target.attrs.position with
          z := target.attrs.position.z +
            getZOffset (configs.get target.layer) visualizer_config }
      let marker := (List.lookup source.layer st.layer_markers).getD {}
      let marker :=
        { marker with
          points := marker.points ++ [source_point, target_point] }
      { layer_markers := aset st.layer_markers source.layer marker,
        num_since_last_insertion :=
          aset st.num_since_last_insertion source.layer 0 }
    else
      { st with
        num_since_last_insertion :=
          aset st.num_since_last_insertion source.layer
            ((List.lookup source.layer st.num_since_last_insertion).getD 0
              + 1) }

/-- One iteration of the `makeDynamicGraphEdgeMarkers` loop
(visualizer_utilities.cpp:701-744), faithful to the error paths: the
unguarded `std::map::at` lookups — `dynamic_configs.at(getConfigLayer(...))`
at cpp:716-717, `configs.at(source.layer)` at cpp:720 (marker creation) and
cpp:737 (source z offset), `configs.at(target.layer)` at cpp:742 (target z
offset) — are rendered through the throwing `atKey`, each evaluated exactly
where the C++ reaches it, so a missing key escapes the whole call as
`std::out_of_range`.  `shouldVisualize` checks only `dynamic_configs` for a
dynamic endpoint, so these lookups are NOT covered by the qualification
gates. -/
def dynamicGraphEdgeStepE (header : String) (configs : ConfigMap LayerConfig)
    (dynamic_configs : ConfigMap DynamicLayerConfig)
    (visualizer_config : VisualizerConfig) ( ns_prefix : String)
    (graph : DynamicSceneGraph) (st : EdgeListState) (edge : InterEdge) :
    Except Unit EdgeListState :=
  let source := graph.getNode edge.source
  let target := graph.getNode edge.target
  if ¬ shouldVisualize graph source configs dynamic_configs then pure st
  else if ¬ shouldVisualize graph target configs dynamic_configs then pure st
  else do
    let config ← dynamic_configs.atKey (getConfigLayer graph source target)
    let num_between_insertions := config.interlayer_edge_insertion_skip
    let st ←
      if (List.lookup source.layer st.layer_markers).isNone then do
        let source_config ← configs.atKey source.layer
        let newm :=
          { makeNewEdgeList header source_config ns_prefix
              source.layer target.layer with
            color := makeColorMsg {} config.edge_alpha }
        pure { layer_markers := aset st.layer_markers source.layer newm,
               -- make sure we always draw at least one edge
               num_since_last_insertion :=
                 aset st.num_since_last_insertion source.layer
                   num_between_insertions }
      else pure st
    if (List.lookup source.layer st.num_since_last_insertion).getD 0 ≥
        num_between_insertions then do
      let source_config ← configs.atKey source.layer
      let target_config ← configs.atKey target.layer
      let source_point : Point :=
        { source.attrs.position with
          z := source.attrs.position.z +
            getZOffset source_config visualizer_config }
      let target_point : Point :=
        { target.attrs.position with
          z := target.attrs.position.z +
            getZOffset target_config visualizer_config }
      let marker := (List.lookup source.layer st.layer_markers).getD {}
      let marker :=
        { marker with
          points := marker.points ++ [source_point, target_point] }
      pure { layer_markers := aset st.layer_markers source.layer marker,
             num_since_last_insertion :=
               aset st.num_since_last_insertion source.layer 0 }
    else
      pure { st with
             num_since_last_insertion :=
               aset st.num_since_last_insertion source.layer
                 ((List.lookup source.layer st.num_since_last_insertion).getD 0
                   + 1) }

/-- C++ `makeDynamicGraphEdgeMarkers` (visualizer_utilities.cpp:690-750),
faithful to the error paths: built on `dynamicGraphEdgeStepE`, so a missing
config key at any reached `map::at` aborts the whole call with
`std::out_of_range` and no markers are returned. -/
def makeDynamicGraphEdgeMarkersE (header : String) (graph : DynamicSceneGraph)
    (configs : ConfigMap LayerConfig)
    (dynamic_configs : ConfigMap DynamicLayerConfig)
    (visualizer_config : VisualizerConfig) ( ns_prefix : String) :
    Except Unit (List Marker) := do
  let st ← graph.dynamic_interlayer_edges.foldlM
    (dynamicGraphEdgeStepE header configs dynamic_configs visualizer_config
      ns_prefix graph)
    {}
  pure (st.layer_markers.map Prod.snd)

/-- The key-present reduct of `makeDynamicGraphEdgeMarkersE`
(visualizer_utilities.cpp:690-750 with every `map::at` lookup succeeding):
the value the call returns whenever it does not throw, see
`edgeInsertionSkip_spec`. -/
def makeDynamicGraphEdgeMarkers (header : String) (graph : DynamicSceneGraph)
    (configs : ConfigMap LayerConfig)
    (dynamic_configs : ConfigMap DynamicLayerConfig)
    (visualizer_config : VisualizerConfig) ( ns_prefix : String) :
    List Marker :=
  (graph.dynamic_interlayer_edges.foldl
    (dynamicGraphEdgeStep header configs dynamic_configs visualizer_config
      ns_prefix graph)
    {}).layer_markers.map Prod.snd

/-- Whether a static inter-layer edge passes every gate of
`makeGraphEdgeMarkers`. -/
def interEdgeQualifies (graph : DynamicSceneGraph)
    (configs : ConfigMap LayerConfig) (filter : FilterFunction)
    (edge : InterEdge) : Bool :=
  let source := graph.getNode edge.source
  let target := graph.getNode edge.target
  passesFilter filter source && passesFilter filter target &&
    (configs.hasKey source.layer && configs.hasKey target.layer) &&
    (configs.get source.layer).visualize &&
    (configs.get target.layer).visualize

/-- The grouping key of an inter-layer edge: its source node's layer. -/
def interEdgeKey (graph : DynamicSceneGraph) (edge : InterEdge) : ℕ :=
  (graph.getNode edge.source).layer

/-- Whether a dynamic inter-layer edge passes both visibility gates of
`makeDynamicGraphEdgeMarkers`. -/
def dynEdgeQualifies (graph : DynamicSceneGraph)
    (configs : ConfigMap LayerConfig)
    (dynamic_configs : ConfigMap DynamicLayerConfig) (edge : InterEdge) :
    Bool :=
  shouldVisualize graph (graph.getNode edge.source) configs dynamic_configs &&
    shouldVisualize graph (graph.getNode edge.target) configs dynamic_configs

/-- Number of qualifying static inter-layer edges with key `L` in a prefix. -/
def interEdgeCount (graph : DynamicSceneGraph)
    (configs : ConfigMap LayerConfig) (filter : FilterFunction) (L : ℕ)
    (done : List InterEdge) : ℕ :=
  done.countP fun e =>
    interEdgeQualifies graph configs filter e && (interEdgeKey graph e == L)

/-- Number of qualifying dynamic inter-layer edges with key `L` in a
prefix. -/
def dynEdgeCount (graph : DynamicSceneGraph)
    (configs : ConfigMap LayerConfig)
    (dynamic_configs : ConfigMap DynamicLayerConfig) (L : ℕ)
    (done : List InterEdge) : ℕ :=
  done.countP fun e =>
    dynEdgeQualifies graph configs dynamic_configs e &&
      (interEdgeKey graph e == L)

/-- Reducing a cons-cell lookup at a matching head key. -/
theorem lookup_cons_self {α : Type} (k : ℕ) (v : α) (t : List (ℕ × α)) :
    List.lookup k ((k, v) :: t) = some v := by
  rw [List.lookup_cons, show (k == k) = true from by simp]

/-- Reducing a cons-cell lookup at a non-matching head key. -/
theorem lookup_cons_ne {α : Type} (k2 k : ℕ) (v : α) (t : List (ℕ × α))
    (h : k2 ≠ k) :
    List.lookup k2 ((k, v) :: t) = List.lookup k2 t := by
  rw [List.lookup_cons, show (k2 == k) = false from by simp [h]]

/-- Looking up the freshly assigned key finds the new value. -/
theorem lookup_aset_self {α : Type} :
    ∀ (l : List (ℕ × α)) (k : ℕ) (v : α),
      List.lookup k (aset l k v) = some v := by
  intro l
  induction l with
  | nil =>
    intro k v
    exact lookup_cons_self k v []
  | cons h t ih =>
    intro k v
    obtain ⟨k2, v2⟩ := h
    unfold aset
    by_cases hk : k2 = k
    · rw [if_pos hk]
      exact lookup_cons_self k v t
    · rw [if_neg hk]
      rw [lookup_cons_ne k k2 v2 _ (fun he => hk he.symm)]
      exact ih k v

/-- Looking up any other key is unaffected by an assignment. -/
theorem lookup_aset_ne {α : Type} :
    ∀ (l : List (ℕ × α)) (k k2 : ℕ) (v : α), k2 ≠ k →
      List.lookup k2 (aset l k v) = List.lookup k2 l := by
  intro l
  induction l with
  | nil =>
    intro k k2 v hne
    exact lookup_cons_ne k2 k v [] hne
  | cons h t ih =>
    intro k k2 v hne
    obtain ⟨k3, v3⟩ := h
    unfold aset
    by_cases hk : k3 = k
    · rw [if_pos hk, hk]
      rw [lookup_cons_ne k2 k v t hne, lookup_cons_ne k2 k v3 t hne]
    · rw [if_neg hk]
      by_cases hk2 : k2 = k3
      · rw [hk2, lookup_cons_self, lookup_cons_self]
      · rw [lookup_cons_ne k2 k3 v3 _ hk2, lookup_cons_ne k2 k3 v3 t hk2]
        exact ih k k2 v hne

/-- Assigning a key already present leaves the key list unchanged. -/
theorem keys_aset_present {α : Type} :
    ∀ (l : List (ℕ × α)) (k : ℕ) (v : α),
      (List.lookup k l).isSome →
        (aset l k v).map Prod.fst = l.map Prod.fst := by
  intro l
  induction l with
  | nil =>
    intro k v h
    simp [List.lookup] at h
  | cons hd t ih =>
    intro k v h
    obtain ⟨k2, v2⟩ := hd
    unfold aset
    by_cases hk : k2 = k
    · rw [if_pos hk]
      simp [hk]
    · rw [if_neg hk]
      rw [lookup_cons_ne k k2 v2 t (fun he => hk he.symm)] at h
      simp only [List.map_cons]
      rw [ih k v h]

/-- Assigning an absent key appends it to the key list. -/
theorem keys_aset_absent {α : Type} :
    ∀ (l : List (ℕ × α)) (k : ℕ) (v : α),
      List.lookup k l = none →
        (aset l k v).map Prod.fst = l.map Prod.fst ++ [k] := by
  intro l
  induction l with
  | nil =>
    intro k v _
    rfl
  | cons hd t ih =>
    intro k v h
    obtain ⟨k2, v2⟩ := hd
    unfold aset
    by_cases hk : k2 = k
    · rw [hk, lookup_cons_self] at h
      cases h
    · rw [if_neg hk]
      rw [lookup_cons_ne k k2 v2 t (fun he => hk he.symm)] at h
      simp only [List.map_cons, List.cons_append]
      rw [ih k v h]

/-- A key with no lookup result is not among the keys. -/
theorem lookup_none_not_mem {α : Type} :
    ∀ (l : List (ℕ × α)) (k : ℕ),
      List.lookup k l = none → k ∉ l.map Prod.fst := by
  intro l
  induction l with
  | nil =>
    intro k _
    simp
  | cons hd t ih =>
    intro k h
    obtain ⟨k2, v2⟩ := hd
    by_cases hk : k = k2
    · rw [hk, lookup_cons_self] at h
      cases h
    · rw [lookup_cons_ne k k2 v2 t hk] at h
      simp only [List.map_cons, List.mem_cons]
      rintro (he | he)
      · exact hk he
      · exact ih k h he

/-- Counter arithmetic, draw case: a counter at its threshold means the
qualifying count so far is a multiple of the period, and drawing bumps the
ceiling-divided count. -/
theorem skipCounter_draw (k E : ℕ) (hE : 1 ≤ E)
    (hc : (E - 1) % (k + 1) ≥ k) :
    (E + 1 + k) / (k + 1) = (E + k) / (k + 1) + 1 ∧ E % (k + 1) = 0 := by
  have hlt : (E - 1) % (k + 1) < k + 1 := Nat.mod_lt _ (Nat.succ_pos k)
  have hck : (E - 1) % (k + 1) = k := le_antisymm (Nat.lt_succ_iff.mp hlt) hc
  have hdm := Nat.div_add_mod (E - 1) (k + 1)
  set m := (E - 1) / (k + 1) with hm
  have hx1 : (k + 1) * (m + 1) = (k + 1) * m + (k + 1) := by ring
  have hx2 : (k + 1) * (m + 2) = (k + 1) * m + (k + 1) + (k + 1) := by ring
  have hEe : E = (k + 1) * (m + 1) := by omega
  constructor
  · have h1 : E + 1 + k = (k + 1) * (m + 2) := by omega
    have h2 : E + k = (k + 1) * (m + 1) + k := by omega
    rw [h1, h2, Nat.mul_div_cancel_left _ (Nat.succ_pos k),
      Nat.mul_add_div (Nat.succ_pos k), Nat.div_eq_of_lt (Nat.lt_succ_self k)]
  · rw [hEe]
    exact Nat.mul_mod_right _ _

/-- Counter arithmetic, skip case: below the threshold, skipping leaves the
ceiling-divided count unchanged and increments the stored counter to the new
remainder. -/
theorem skipCounter_skip (k E : ℕ) (hE : 1 ≤ E)
    (hc : ¬ (E - 1) % (k + 1) ≥ k) :
    (E + 1 + k) / (k + 1) = (E + k) / (k + 1) ∧
      (E - 1) % (k + 1) + 1 = E % (k + 1) := by
  have hck : (E - 1) % (k + 1) < k := lt_of_not_ge hc
  have hdm := Nat.div_add_mod (E - 1) (k + 1)
  set m := (E - 1) / (k + 1) with hm
  set c := (E - 1) % (k + 1) with hcdef
  have hx1 : (k + 1) * (m + 1) = (k + 1) * m + (k + 1) := by ring
  have hEe : E = (k + 1) * m + (c + 1) := by omega
  constructor
  · have h1 : E + 1 + k = (k + 1) * (m + 1) + (c + 1) := by omega
    have h2 : E + k = (k + 1) * (m + 1) + c := by omega
    rw [h1, h2, Nat.mul_add_div (Nat.succ_pos k),
      Nat.mul_add_div (Nat.succ_pos k),
      Nat.div_eq_of_lt (by omega : c + 1 < k + 1),
      Nat.div_eq_of_lt (by omega : c < k + 1)]
  · rw [hEe, Nat.mul_add_mod, Nat.mod_eq_of_lt (by omega : c + 1 < k + 1)]

/-- The loop invariant of `makeGraphEdgeMarkers`: marker-map keys are
distinct; a source layer has a batch iff the prefix contained a qualifying
edge with that key; a batch holds two points per drawn edge with exactly
`ceil(E / (k+1))` edges drawn, per-vertex colors marching with points; and
the skip counter stores `(E - 1) mod (k+1)`. -/
def EdgeInv (graph : DynamicSceneGraph) (configs : ConfigMap LayerConfig)
    (filter : FilterFunction) (done : List InterEdge)
    (st : EdgeListState) : Prop :=
  (st.layer_markers.map Prod.fst).Nodup ∧
  ∀ L : ℕ,
    (interEdgeCount graph configs filter L done = 0 →
      List.lookup L st.layer_markers = none ∧
      List.lookup L st.num_since_last_insertion = none) ∧
    (1 ≤ interEdgeCount graph configs filter L done →
      ∃ m, List.lookup L st.layer_markers = some m ∧
        m.points.length =
          2 * ((interEdgeCount graph configs filter L done +
              (configs.get L).interlayer_edge_insertion_skip) /
            ((configs.get L).interlayer_edge_insertion_skip + 1)) ∧
        m.colors.length = m.points.length ∧
        List.lookup L st.num_since_last_insertion =
          some ((interEdgeCount graph configs filter L done - 1) %
            ((configs.get L).interlayer_edge_insertion_skip + 1)))

/-- Appending a qualifying edge with key `L` bumps that key's count. -/
theorem interEdgeCount_append_qual (graph : DynamicSceneGraph)
    (configs : ConfigMap LayerConfig) (filter : FilterFunction)
    (done : List InterEdge) (e : InterEdge) (L : ℕ)
    (hq : interEdgeQualifies graph configs filter e = true)
    (hk : interEdgeKey graph e = L) :
    interEdgeCount graph configs filter L (done ++ [e]) =
      interEdgeCount graph configs filter L done + 1 := by
  unfold interEdgeCount
  rw [List.countP_append]
  simp [List.countP_cons, hq, hk]

/-- Appending a non-qualifying or differently keyed edge leaves counts. -/
theorem interEdgeCount_append_other (graph : DynamicSceneGraph)
    (configs : ConfigMap LayerConfig) (filter : FilterFunction)
    (done : List InterEdge) (e : InterEdge) (L : ℕ)
    (h : interEdgeQualifies graph configs filter e = false ∨
      interEdgeKey graph e ≠ L) :
    interEdgeCount graph configs filter L (done ++ [e]) =
      interEdgeCount graph configs filter L done := by
  unfold interEdgeCount
  rw [List.countP_append]
  rcases h with h | h
  · simp [List.countP_cons, h]
  · simp [List.countP_cons, h]

/-- A non-qualifying edge leaves the whole invariant untouched. -/
theorem EdgeInv_unqualified (graph : DynamicSceneGraph)
    (configs : ConfigMap LayerConfig) (filter : FilterFunction)
    (done : List InterEdge) (st : EdgeListState) (e : InterEdge)
    (hq : interEdgeQualifies graph configs filter e = false)
    (hinv : EdgeInv graph configs filter done st) :
    EdgeInv graph configs filter (done ++ [e]) st := by
  obtain ⟨hnodup, hL⟩ := hinv
  refine ⟨hnodup, fun L => ?_⟩
  rw [interEdgeCount_append_other graph configs filter done e L (Or.inl hq)]
  exact hL L

/-- One `makeGraphEdgeMarkers` iteration preserves the invariant. -/
theorem graphEdgeStep_inv (header : String) (configs : ConfigMap LayerConfig)
    (visualizer_config : VisualizerConfig) ( ns_prefix : String)
    (filter : FilterFunction) (graph : DynamicSceneGraph)
    (done : List InterEdge) (e : InterEdge) (st st2 : EdgeListState)
    (hstep : graphEdgeStep header configs visualizer_config ns_prefix filter
      graph st e = .ok st2)
    (hinv : EdgeInv graph configs filter done st) :
    EdgeInv graph configs filter (done ++ [e]) st2 := by
  unfold graphEdgeStep at hstep
  dsimp only at hstep
  cases hps : passesFilter filter (graph.getNode e.source) with
  | false =>
    rw [hps, if_pos (by decide)] at hstep
    cases hstep
    exact EdgeInv_unqualified _ _ _ _ _ _
      (by simp [interEdgeQualifies, hps]) hinv
  | true =>
  rw [hps, if_neg (by decide)] at hstep
  cases hpt : passesFilter filter (graph.getNode e.target) with
  | false =>
    rw [hpt, if_pos (by decide)] at hstep
    cases hstep
    exact EdgeInv_unqualified _ _ _ _ _ _
      (by simp [interEdgeQualifies, hpt]) hinv
  | true =>
  rw [hpt, if_neg (by decide)] at hstep
  cases hhk : configs.hasKey (graph.getNode e.source).layer &&
      configs.hasKey (graph.getNode e.target).layer with
  | false =>
    rw [hhk, if_pos (by decide)] at hstep
    cases hstep
    refine EdgeInv_unqualified _ _ _ _ _ _ ?_ hinv
    unfold interEdgeQualifies
    dsimp only
    rw [hhk]
    simp
  | true =>
  rw [hhk, if_neg (by decide)] at hstep
  cases hvs : (configs.get (graph.getNode e.source).layer).visualize with
  | false =>
    rw [hvs, if_pos (by decide)] at hstep
    cases hstep
    exact EdgeInv_unqualified _ _ _ _ _ _
      (by simp [interEdgeQualifies, hvs]) hinv
  | true =>
  rw [hvs, if_neg (by decide)] at hstep
  cases hvt : (configs.get (graph.getNode e.target).layer).visualize with
  | false =>
    rw [hvt, if_pos (by decide)] at hstep
    cases hstep
    exact EdgeInv_unqualified _ _ _ _ _ _
      (by simp [interEdgeQualifies, hvt]) hinv
  | true =>
  rw [hvt, if_neg (by decide)] at hstep
  have hq : interEdgeQualifies graph configs filter e = true := by
    unfold interEdgeQualifies
    dsimp only
    rw [hps, hpt, hhk, hvs, hvt]
    rfl
  obtain ⟨hnodup, hL⟩ := hinv
  have hkey : interEdgeKey graph e = (graph.getNode e.source).layer := rfl
  have hcountL : interEdgeCount graph configs filter
      (graph.getNode e.source).layer (done ++ [e]) =
      interEdgeCount graph configs filter (graph.getNode e.source).layer done
        + 1 :=
    interEdgeCount_append_qual graph configs filter done e _ hq hkey
  have hcountO : ∀ L, L ≠ (graph.getNode e.source).layer →
      interEdgeCount graph configs filter L (done ++ [e]) =
        interEdgeCount graph configs filter L done :=
    fun L hne => interEdgeCount_append_other graph configs filter done e L
      (Or.inr fun hc => hne (hkey ▸ hc.symm))
  cases hex : List.lookup (graph.getNode e.source).layer st.layer_markers with
  | none =>
    have hE0 : interEdgeCount graph configs filter
        (graph.getNode e.source).layer done = 0 := by
      rcases Nat.eq_zero_or_pos (interEdgeCount graph configs filter
        (graph.getNode e.source).layer done) with h0 | h1
      · exact h0
      · obtain ⟨m, hm, -⟩ := (hL (graph.getNode e.source).layer).2 h1
        rw [hex] at hm
        cases hm
    rw [hex] at hstep
    simp only [Option.isNone_none] at hstep
    rw [if_pos trivial] at hstep
    rw [lookup_aset_self] at hstep
    simp only [Option.getD_some] at hstep
    rw [if_pos (le_refl _)] at hstep
    rw [lookup_aset_self] at hstep
    simp only [Option.getD_some] at hstep
    have hgoal : ∀ c : Color, EdgeInv graph configs filter (done ++ [e])
        { layer_markers :=
            aset (aset st.layer_markers (graph.getNode e.source).layer
                (makeNewEdgeList header
                  (configs.get (graph.getNode e.source).layer) ns_prefix
                  (graph.getNode e.source).layer
                  (graph.getNode e.target).layer))
              (graph.getNode e.source).layer
              { makeNewEdgeList header
                  (configs.get (graph.getNode e.source).layer) ns_prefix
                  (graph.getNode e.source).layer
                  (graph.getNode e.target).layer with
                points :=
                  (makeNewEdgeList header
                    (configs.get (graph.getNode e.source).layer) ns_prefix
                    (graph.getNode e.source).layer
                    (graph.getNode e.target).layer).points ++
                  [{ (graph.getNode e.source).attrs.position with
                      z := (graph.getNode e.source).attrs.position.z +
                        getZOffset (configs.get (graph.getNode e.source).layer)
                          visualizer_config },
                   { (graph.getNode e.target).attrs.position with
                      z := (graph.getNode e.target).attrs.position.z +
                        getZOffset (configs.get (graph.getNode e.target).layer)
                          visualizer_config }],
                colors :=
                  (makeNewEdgeList header
                    (configs.get (graph.getNode e.source).layer) ns_prefix
                    (graph.getNode e.source).layer
                    (graph.getNode e.target).layer).colors ++
                  [makeColorMsg c (configs.get
                      (graph.getNode e.source).layer).intralayer_edge_alpha,
                   makeColorMsg c (configs.get
                      (graph.getNode e.source).layer).intralayer_edge_alpha] },
          num_since_last_insertion :=
            aset (aset st.num_since_last_insertion
                (graph.getNode e.source).layer
                (configs.get
                  (graph.getNode e.source).layer).interlayer_edge_insertion_skip)
              (graph.getNode e.source).layer 0 } := by
      intro c
      constructor
      · rw [keys_aset_present _ _ _ (by rw [lookup_aset_self]; rfl),
          keys_aset_absent _ _ _ hex]
        rw [List.nodup_append]
        refine ⟨hnodup, List.nodup_singleton _, ?_⟩
        intro a ha hb
        rw [List.mem_singleton] at hb
        subst hb
        exact lookup_none_not_mem _ _ hex ha
      · intro L
        by_cases hLe : L = (graph.getNode e.source).layer
        · subst hLe
          rw [hcountL, hE0]
          constructor
          · intro hcontra
            cases hcontra
          · intro _
            refine ⟨_, lookup_aset_self _ _ _, ?_, ?_, ?_⟩
            · have h2 : ∀ kk : ℕ, (2 : ℕ) = 2 * ((0 + 1 + kk) / (kk + 1)) := by
                intro kk
                rw [Nat.zero_add, Nat.add_comm 1 kk, Nat.div_self (Nat.succ_pos kk)]
              exact h2 _
            · rfl
            · rw [lookup_aset_self]
              simp
        · rw [hcountO L hLe]
          rw [lookup_aset_ne _ _ _ _ hLe, lookup_aset_ne _ _ _ _ hLe,
            lookup_aset_ne _ _ _ _ hLe, lookup_aset_ne _ _ _ _ hLe]
          exact hL L
    cases huc : (configs.get (graph.getNode e.source).layer).interlayer_edge_use_color with
    | false =>
      rw [huc, if_neg (by decide)] at hstep
      rw [show ∀ f : Color → Except Unit EdgeListState,
          (pure ({} : Color) : Except Unit Color) >>= f = f {} from
          fun _ => rfl] at hstep
      cases hstep
      exact hgoal {}
    | true =>
      rw [huc, if_pos rfl] at hstep
      cases hes : (configs.get (graph.getNode e.source).layer).use_edge_source with
      | true =>
        rw [hes, if_pos rfl] at hstep
        cases hsc : (graph.getNode e.source).attrs.asSemantic with
        | error u =>
          rw [hsc] at hstep
          cases hstep
        | ok a =>
          rw [hsc] at hstep
          rw [show ∀ f : Color → Except Unit EdgeListState,
              (Except.map (fun a2 : SemanticAttrs => a2.color)
                (Except.ok a) : Except Unit Color) >>= f = f a.color from
              fun _ => rfl] at hstep
          cases hstep
          exact hgoal a.color
      | false =>
        rw [hes, if_neg (by decide)] at hstep
        cases hsc : (graph.getNode e.target).attrs.asSemantic with
        | error u =>
          rw [hsc] at hstep
          cases hstep
        | ok a =>
          rw [hsc] at hstep
          rw [show ∀ f : Color → Except Unit EdgeListState,
              (Except.map (fun a2 : SemanticAttrs => a2.color)
                (Except.ok a) : Except Unit Color) >>= f = f a.color from
              fun _ => rfl] at hstep
          cases hstep
          exact hgoal a.color
  | some m0 =>
    have hE1 : 1 ≤ interEdgeCount graph configs filter
        (graph.getNode e.source).layer done := by
      rcases Nat.eq_zero_or_pos (interEdgeCount graph configs filter
        (graph.getNode e.source).layer done) with h0 | h1
      · obtain ⟨hmn, -⟩ := (hL (graph.getNode e.source).layer).1 h0
        rw [hex] at hmn
        cases hmn
      · exact h1
    obtain ⟨m, hm, hmlen, hmcol, hmctr⟩ :=
      (hL (graph.getNode e.source).layer).2 hE1
    have hmm : m = m0 := by
      rw [hex] at hm
      cases hm
      rfl
    subst hmm
    rw [hex] at hstep
    simp only [Option.isNone_some] at hstep
    rw [if_neg (show ¬ (false = true) from by decide)] at hstep
    rw [hex, hmctr] at hstep
    simp only [Option.getD_some] at hstep
    by_cases hge : (interEdgeCount graph configs filter
        (graph.getNode e.source).layer done - 1) %
        ((configs.get (graph.getNode e.source).layer).interlayer_edge_insertion_skip + 1) ≥
        (configs.get (graph.getNode e.source).layer).interlayer_edge_insertion_skip
    case pos =>
      obtain ⟨hdiv, hmod⟩ := skipCounter_draw _ _ hE1 hge
      rw [if_pos hge] at hstep
      have hgoal : ∀ c : Color, EdgeInv graph configs filter (done ++ [e])
          { layer_markers :=
              aset st.layer_markers (graph.getNode e.source).layer
                { m with
                  points := m.points ++
                    [{ (graph.getNode e.source).attrs.position with
                        z := (graph.getNode e.source).attrs.position.z +
                          getZOffset
                            (configs.get (graph.getNode e.source).layer)
                            visualizer_config },
                     { (graph.getNode e.target).attrs.position with
                        z := (graph.getNode e.target).attrs.position.z +
                          getZOffset
                            (configs.get (graph.getNode e.target).layer)
                            visualizer_config }],
                  colors := m.colors ++
                    [makeColorMsg c (configs.get
                        (graph.getNode e.source).layer).intralayer_edge_alpha,
                     makeColorMsg c (configs.get
                        (graph.getNode e.source).layer).intralayer_edge_alpha] },
            num_since_last_insertion :=
              aset st.num_since_last_insertion
                (graph.getNode e.source).layer 0 } := by
        intro c
        constructor
        · rw [keys_aset_present _ _ _ (by rw [hex]; rfl)]
          exact hnodup
        · intro L
          by_cases hLe : L = (graph.getNode e.source).layer
          · subst hLe
            rw [hcountL]
            constructor
            · intro hcontra
              omega
            · intro _
              refine ⟨_, lookup_aset_self _ _ _, ?_, ?_, ?_⟩
              · simp only [List.length_append, hmlen, List.length_cons,
                  List.length_nil]
                rw [hdiv]
                ring
              · simp only [List.length_append, hmcol, List.length_cons,
                  List.length_nil]
              · rw [lookup_aset_self, Nat.add_sub_cancel, hmod]
          · rw [hcountO L hLe, lookup_aset_ne _ _ _ _ hLe,
              lookup_aset_ne _ _ _ _ hLe]
            exact hL L
      cases huc : (configs.get (graph.getNode e.source).layer).interlayer_edge_use_color with
      | false =>
        rw [huc, if_neg (by decide)] at hstep
        rw [show ∀ f : Color → Except Unit EdgeListState,
            (pure ({} : Color) : Except Unit Color) >>= f = f {} from
            fun _ => rfl] at hstep
        cases hstep
        exact hgoal {}
      | true =>
        rw [huc, if_pos rfl] at hstep
        cases hes : (configs.get (graph.getNode e.source).layer).use_edge_source with
        | true =>
          rw [hes, if_pos rfl] at hstep
          cases hsc : (graph.getNode e.source).attrs.asSemantic with
          | error u =>
            rw [hsc] at hstep
            cases hstep
          | ok a =>
            rw [hsc] at hstep
            rw [show ∀ f : Color → Except Unit EdgeListState,
                (Except.map (fun a2 : SemanticAttrs => a2.color)
                  (Except.ok a) : Except Unit Color) >>= f = f a.color from
                fun _ => rfl] at hstep
            cases hstep
            exact hgoal a.color
        | false =>
          rw [hes, if_neg (by decide)] at hstep
          cases hsc : (graph.getNode e.target).attrs.asSemantic with
          | error u =>
            rw [hsc] at hstep
            cases hstep
          | ok a =>
            rw [hsc] at hstep
            rw [show ∀ f : Color → Except Unit EdgeListState,
                (Except.map (fun a2 : SemanticAttrs => a2.color)
                  (Except.ok a) : Except Unit Color) >>= f = f a.color from
                fun _ => rfl] at hstep
            cases hstep
            exact hgoal a.color
    case neg =>
      obtain ⟨hdiv, hmod⟩ := skipCounter_skip _ _ hE1 hge
      rw [if_neg hge] at hstep
      cases hstep
      constructor
      · exact hnodup
      · intro L
        by_cases hLe : L = (graph.getNode e.source).layer
        · subst hLe
          rw [hcountL]
          constructor
          · intro hcontra
            omega
          · intro _
            refine ⟨m, hex, ?_, hmcol, ?_⟩
            · rw [hmlen, hdiv]
            · show List.lookup _ (aset _ _ _) = _
              rw [lookup_aset_self, Nat.add_sub_cancel, hmod]
        · rw [hcountO L hLe]
          have hctr := lookup_aset_ne st.num_since_last_insertion
            (graph.getNode e.source).layer L
            ((interEdgeCount graph configs filter
                (graph.getNode e.source).layer done - 1) %
              ((configs.get
                (graph.getNode e.source).layer).interlayer_edge_insertion_skip
                + 1) + 1) hLe
          constructor
          · intro h0
            obtain ⟨ha, hb⟩ := (hL L).1 h0
            exact ⟨ha, by rw [hctr]; exact hb⟩
          · intro h1
            obtain ⟨m2, ha, hb, hc, hd⟩ := (hL L).2 h1
            exact ⟨m2, ha, hb, hc, by rw [hctr]; exact hd⟩

/-- The invariant holds for the empty state and empty prefix. -/
theorem EdgeInv_init (graph : DynamicSceneGraph)
    (configs : ConfigMap LayerConfig) (filter : FilterFunction) :
    EdgeInv graph configs filter [] {} := by
  constructor
  · exact List.nodup_nil
  · intro L
    constructor
    · intro _
      exact ⟨rfl, rfl⟩
    · intro h
      cases h

/-- Folding the static step over any edge list preserves the invariant. -/
theorem graphEdgeFold_inv (header : String) (configs : ConfigMap LayerConfig)
    (visualizer_config : VisualizerConfig) ( ns_prefix : String)
    (filter : FilterFunction) (graph : DynamicSceneGraph) :
    ∀ (l done : List InterEdge) (st st2 : EdgeListState),
      l.foldlM (graphEdgeStep header configs visualizer_config ns_prefix
        filter graph) st = .ok st2 →
      EdgeInv graph configs filter done st →
      EdgeInv graph configs filter (done ++ l) st2 := by
  intro l
  induction l with
  | nil =>
    intro done st st2 h hinv
    cases h
    simpa using hinv
  | cons x xs ih =>
    intro done st st2 h hinv
    rw [List.foldlM_cons] at h
    cases hx : graphEdgeStep header configs visualizer_config ns_prefix
        filter graph st x with
    | error u =>
      rw [hx] at h
      cases h
    | ok st1 =>
      rw [hx] at h
      have h2 := ih (done ++ [x]) st1 st2 h
        (graphEdgeStep_inv header configs visualizer_config ns_prefix filter
          graph done x st st1 hx hinv)
      rw [List.append_assoc] at h2
      simpa using h2

/-- The insertion-skip factor the dynamic variant applies to an edge: the
config of `getConfigLayer` (the source layer for dynamic sources, else the
target layer), so it is not necessarily a function of the namespace key
alone. -/
def dynK (graph : DynamicSceneGraph)
    (dynamic_configs : ConfigMap DynamicLayerConfig) (e : InterEdge) : ℕ :=
  (dynamic_configs.get (getConfigLayer graph (graph.getNode e.source)
    (graph.getNode e.target))).interlayer_edge_insertion_skip

/-- The loop invariant of `makeDynamicGraphEdgeMarkers`, for runs whose
qualifying edges have a per-key-constant skip factor `kfun`. -/
def DynEdgeInv (graph : DynamicSceneGraph) (configs : ConfigMap LayerConfig)
    (dynamic_configs : ConfigMap DynamicLayerConfig) (kfun : ℕ → ℕ)
    (done : List InterEdge) (st : EdgeListState) : Prop :=
  (st.layer_markers.map Prod.fst).Nodup ∧
  ∀ L : ℕ,
    (dynEdgeCount graph configs dynamic_configs L done = 0 →
      List.lookup L st.layer_markers = none ∧
      List.lookup L st.num_since_last_insertion = none) ∧
    (1 ≤ dynEdgeCount graph configs dynamic_configs L done →
      ∃ m, List.lookup L st.layer_markers = some m ∧
        m.points.length =
          2 * ((dynEdgeCount graph configs dynamic_configs L done + kfun L) /
            (kfun L + 1)) ∧
        m.colors = [] ∧
        List.lookup L st.num_since_last_insertion =
          some ((dynEdgeCount graph configs dynamic_configs L done - 1) %
            (kfun L + 1)))

/-- Appending a qualifying dynamic edge with key `L` bumps that count. -/
theorem dynEdgeCount_append_qual (graph : DynamicSceneGraph)
    (configs : ConfigMap LayerConfig)
    (dynamic_configs : ConfigMap DynamicLayerConfig)
    (done : List InterEdge) (e : InterEdge) (L : ℕ)
    (hq : dynEdgeQualifies graph configs dynamic_configs e = true)
    (hk : interEdgeKey graph e = L) :
    dynEdgeCount graph configs dynamic_configs L (done ++ [e]) =
      dynEdgeCount graph configs dynamic_configs L done + 1 := by
  unfold dynEdgeCount
  rw [List.countP_append]
  simp [List.countP_cons, hq, hk]

/-- Appending a non-qualifying or differently keyed dynamic edge leaves
counts. -/
theorem dynEdgeCount_append_other (graph : DynamicSceneGraph)
    (configs : ConfigMap LayerConfig)
    (dynamic_configs : ConfigMap DynamicLayerConfig)
    (done : List InterEdge) (e : InterEdge) (L : ℕ)
    (h : dynEdgeQualifies graph configs dynamic_configs e = false ∨
      interEdgeKey graph e ≠ L) :
    dynEdgeCount graph configs dynamic_configs L (done ++ [e]) =
      dynEdgeCount graph configs dynamic_configs L done := by
  unfold dynEdgeCount
  rw [List.countP_append]
  rcases h with h | h
  · simp [List.countP_cons, h]
  · simp [List.countP_cons, h]

/-- A non-qualifying dynamic edge leaves the invariant untouched. -/
theorem DynEdgeInv_unqualified (graph : DynamicSceneGraph)
    (configs : ConfigMap LayerConfig)
    (dynamic_configs : ConfigMap DynamicLayerConfig) (kfun : ℕ → ℕ)
    (done : List InterEdge) (st : EdgeListState) (e : InterEdge)
    (hq : dynEdgeQualifies graph configs dynamic_configs e = false)
    (hinv : DynEdgeInv graph configs dynamic_configs kfun done st) :
    DynEdgeInv graph configs dynamic_configs kfun (done ++ [e]) st := by
  obtain ⟨hnodup, hL⟩ := hinv
  refine ⟨hnodup, fun L => ?_⟩
  rw [dynEdgeCount_append_other graph configs dynamic_configs done e L
    (Or.inl hq)]
  exact hL L

/-- One `makeDynamicGraphEdgeMarkers` iteration preserves the invariant. -/
theorem dynamicGraphEdgeStep_inv (header : String)
    (configs : ConfigMap LayerConfig)
    (dynamic_configs : ConfigMap DynamicLayerConfig)
    (visualizer_config : VisualizerConfig) ( ns_prefix : String)
    (graph : DynamicSceneGraph) (kfun : ℕ → ℕ)
    (done : List InterEdge) (e : InterEdge) (st : EdgeListState)
    (hke : dynEdgeQualifies graph configs dynamic_configs e = true →
      dynK graph dynamic_configs e = kfun (interEdgeKey graph e))
    (hinv : DynEdgeInv graph configs dynamic_configs kfun done st) :
    DynEdgeInv graph configs dynamic_configs kfun (done ++ [e])
      (dynamicGraphEdgeStep header configs dynamic_configs visualizer_config
        ns_prefix graph st e) := by
  unfold dynamicGraphEdgeStep
  dsimp only
  cases hv1 : shouldVisualize graph (graph.getNode e.source) configs
      dynamic_configs with
  | false =>
    rw [if_pos (show ¬ false = true from by decide)]
    exact DynEdgeInv_unqualified _ _ _ _ _ _ _
      (by simp [dynEdgeQualifies, hv1]) hinv
  | true =>
  rw [if_neg (show ¬ ¬ true = true from by decide)]
  cases hv2 : shouldVisualize graph (graph.getNode e.target) configs
      dynamic_configs with
  | false =>
    rw [if_pos (show ¬ false = true from by decide)]
    exact DynEdgeInv_unqualified _ _ _ _ _ _ _
      (by simp [dynEdgeQualifies, hv2]) hinv
  | true =>
  rw [if_neg (show ¬ ¬ true = true from by decide)]
  have hq : dynEdgeQualifies graph configs dynamic_configs e = true := by
    unfold dynEdgeQualifies
    rw [hv1, hv2]
    rfl
  have hkk : dynK graph dynamic_configs e =
      kfun (graph.getNode e.source).layer := hke hq
  unfold dynK at hkk
  rw [hkk]
  obtain ⟨hnodup, hL⟩ := hinv
  have hkey : interEdgeKey graph e = (graph.getNode e.source).layer := rfl
  have hcountL : dynEdgeCount graph configs dynamic_configs
      (graph.getNode e.source).layer (done ++ [e]) =
      dynEdgeCount graph configs dynamic_configs
        (graph.getNode e.source).layer done + 1 :=
    dynEdgeCount_append_qual graph configs dynamic_configs done e _ hq hkey
  have hcountO : ∀ L, L ≠ (graph.getNode e.source).layer →
      dynEdgeCount graph configs dynamic_configs L (done ++ [e]) =
        dynEdgeCount graph configs dynamic_configs L done :=
    fun L hne => dynEdgeCount_append_other graph configs dynamic_configs done
      e L (Or.inr fun hc => hne (hkey ▸ hc.symm))
  cases hex : List.lookup (graph.getNode e.source).layer st.layer_markers with
  | none =>
    have hE0 : dynEdgeCount graph configs dynamic_configs
        (graph.getNode e.source).layer done = 0 := by
      rcases Nat.eq_zero_or_pos (dynEdgeCount graph configs dynamic_configs
        (graph.getNode e.source).layer done) with h0 | h1
      · exact h0
      · obtain ⟨m, hm, -⟩ := (hL (graph.getNode e.source).layer).2 h1
        rw [hex] at hm
        cases hm
    simp only [Option.isNone_none]
    rw [if_pos trivial, lookup_aset_self]
    simp only [Option.getD_some]
    rw [if_pos (le_refl _), lookup_aset_self]
    simp only [Option.getD_some]
    constructor
    · rw [keys_aset_present _ _ _ (by rw [lookup_aset_self]; rfl),
        keys_aset_absent _ _ _ hex]
      rw [List.nodup_append]
      refine ⟨hnodup, List.nodup_singleton _, ?_⟩
      intro a ha hb
      rw [List.mem_singleton] at hb
      subst hb
      exact lookup_none_not_mem _ _ hex ha
    · intro L
      by_cases hLe : L = (graph.getNode e.source).layer
      · subst hLe
        rw [hcountL, hE0]
        constructor
        · intro hcontra
          cases hcontra
        · intro _
          refine ⟨_, lookup_aset_self _ _ _, ?_, ?_, ?_⟩
          · have h2 : ∀ kk : ℕ, (2 : ℕ) = 2 * ((0 + 1 + kk) / (kk + 1)) := by
              intro kk
              rw [Nat.zero_add, Nat.add_comm 1 kk,
                Nat.div_self (Nat.succ_pos kk)]
            exact h2 _
          · rfl
          · rw [lookup_aset_self]
            simp
      · rw [hcountO L hLe]
        rw [lookup_aset_ne _ _ _ _ hLe, lookup_aset_ne _ _ _ _ hLe,
          lookup_aset_ne _ _ _ _ hLe, lookup_aset_ne _ _ _ _ hLe]
        exact hL L
  | some m0 =>
    have hE1 : 1 ≤ dynEdgeCount graph configs dynamic_configs
        (graph.getNode e.source).layer done := by
      rcases Nat.eq_zero_or_pos (dynEdgeCount graph configs dynamic_configs
        (graph.getNode e.source).layer done) with h0 | h1
      · obtain ⟨hmn, -⟩ := (hL (graph.getNode e.source).layer).1 h0
        rw [hex] at hmn
        cases hmn
      · exact h1
    obtain ⟨m, hm, hmlen, hmcol, hmctr⟩ :=
      (hL (graph.getNode e.source).layer).2 hE1
    have hmm : m = m0 := by
      rw [hex] at hm
      cases hm
      rfl
    subst hmm
    simp only [Option.isNone_some]
    rw [if_neg (show ¬ (false = true) from by decide), hex, hmctr]
    simp only [Option.getD_some]
    by_cases hge : (dynEdgeCount graph configs dynamic_configs
        (graph.getNode e.source).layer done - 1) %
        (kfun (graph.getNode e.source).layer + 1) ≥
        kfun (graph.getNode e.source).layer
    case pos =>
      obtain ⟨hdiv, hmod⟩ := skipCounter_draw _ _ hE1 hge
      rw [if_pos hge]
      constructor
      · rw [keys_aset_present _ _ _ (by rw [hex]; rfl)]
        exact hnodup
      · intro L
        by_cases hLe : L = (graph.getNode e.source).layer
        · subst hLe
          rw [hcountL]
          constructor
          · intro hcontra
            omega
          · intro _
            refine ⟨_, lookup_aset_self _ _ _, ?_, ?_, ?_⟩
            · simp only [List.length_append, hmlen, List.length_cons,
                List.length_nil]
              rw [hdiv]
              ring
            · simp only [hmcol]
            · rw [lookup_aset_self, Nat.add_sub_cancel, hmod]
        · rw [hcountO L hLe, lookup_aset_ne _ _ _ _ hLe,
            lookup_aset_ne _ _ _ _ hLe]
          exact hL L
    case neg =>
      obtain ⟨hdiv, hmod⟩ := skipCounter_skip _ _ hE1 hge
      rw [if_neg hge]
      constructor
      · exact hnodup
      · intro L
        by_cases hLe : L = (graph.getNode e.source).layer
        · subst hLe
          rw [hcountL]
          constructor
          · intro hcontra
            omega
          · intro _
            refine ⟨m, hex, ?_, hmcol, ?_⟩
            · rw [hmlen, hdiv]
            · show List.lookup _ (aset _ _ _) = _
              rw [lookup_aset_self, Nat.add_sub_cancel, hmod]
        · rw [hcountO L hLe]
          have hctr := lookup_aset_ne st.num_since_last_insertion
            (graph.getNode e.source).layer L
            ((dynEdgeCount graph configs dynamic_configs
                (graph.getNode e.source).layer done - 1) %
              (kfun (graph.getNode e.source).layer + 1) + 1) hLe
          constructor
          · intro h0
            obtain ⟨ha, hb⟩ := (hL L).1 h0
            exact ⟨ha, by rw [hctr]; exact hb⟩
          · intro h1
            obtain ⟨m2, ha, hb, hc, hd⟩ := (hL L).2 h1
            exact ⟨m2, ha, hb, hc, by rw [hctr]; exact hd⟩

/-- The dynamic invariant holds initially. -/
theorem DynEdgeInv_init (graph : DynamicSceneGraph)
    (configs : ConfigMap LayerConfig)
    (dynamic_configs : ConfigMap DynamicLayerConfig) (kfun : ℕ → ℕ) :
    DynEdgeInv graph configs dynamic_configs kfun [] {} := by
  constructor
  · exact List.nodup_nil
  · intro L
    constructor
    · intro _
      exact ⟨rfl, rfl⟩
    · intro h
      cases h

/-- Folding the dynamic step preserves the invariant. -/
theorem dynamicGraphEdgeFold_inv (header : String)
    (configs : ConfigMap LayerConfig)
    (dynamic_configs : ConfigMap DynamicLayerConfig)
    (visualizer_config : VisualizerConfig) ( ns_prefix : String)
    (graph : DynamicSceneGraph) (kfun : ℕ → ℕ) :
    ∀ (l done : List InterEdge) (st : EdgeListState),
      (∀ e ∈ l, dynEdgeQualifies graph configs dynamic_configs e = true →
        dynK graph dynamic_configs e = kfun (interEdgeKey graph e)) →
      DynEdgeInv graph configs dynamic_configs kfun done st →
      DynEdgeInv graph configs dynamic_configs kfun (done ++ l)
        (l.foldl (dynamicGraphEdgeStep header configs dynamic_configs
          visualizer_config ns_prefix graph) st) := by
  intro l
  induction l with
  | nil =>
    intro done st _ hinv
    simpa using hinv
  | cons x xs ih =>
    intro done st hk hinv
    rw [List.foldl_cons]
    have h2 := ih (done ++ [x]) _
      (fun e he hq => hk e (List.mem_cons_of_mem x he) hq)
      (dynamicGraphEdgeStep_inv header configs dynamic_configs
        visualizer_config ns_prefix graph kfun done x st
        (hk x (List.mem_cons_self x xs)) hinv)
    rw [List.append_assoc] at h2
    simpa using h2

/-- When every `map::at` lookup an edge can reach succeeds, the faithful
step `dynamicGraphEdgeStepE` computes exactly the key-present reduct
`dynamicGraphEdgeStep`: a non-qualifying edge reaches no lookup in either,
and for a qualifying edge the hypothesis supplies every key. -/
theorem dynamicGraphEdgeStepE_ok (header : String)
    (configs : ConfigMap LayerConfig)
    (dynamic_configs : ConfigMap DynamicLayerConfig)
    (visualizer_config : VisualizerConfig) ( ns_prefix : String)
    (graph : DynamicSceneGraph) (st : EdgeListState) (e : InterEdge)
    (hkeys : dynEdgeQualifies graph configs dynamic_configs e = true →
      configs.hasKey (graph.getNode e.source).layer = true ∧
      configs.hasKey (graph.getNode e.target).layer = true ∧
      dynamic_configs.hasKey (getConfigLayer graph (graph.getNode e.source)
        (graph.getNode e.target)) = true) :
    dynamicGraphEdgeStepE header configs dynamic_configs visualizer_config
        ns_prefix graph st e =
      .ok (dynamicGraphEdgeStep header configs dynamic_configs
        visualizer_config ns_prefix graph st e) := by
  unfold dynamicGraphEdgeStepE dynamicGraphEdgeStep
  dsimp only
  cases hv1 : shouldVisualize graph (graph.getNode e.source) configs
      dynamic_configs with
  | false =>
    rw [if_pos (show ¬ false = true from by decide),
      if_pos (show ¬ false = true from by decide)]
    rfl
  | true =>
  rw [if_neg (show ¬ ¬ true = true from by decide),
    if_neg (show ¬ ¬ true = true from by decide)]
  cases hv2 : shouldVisualize graph (graph.getNode e.target) configs
      dynamic_configs with
  | false =>
    rw [if_pos (show ¬ false = true from by decide),
      if_pos (show ¬ false = true from by decide)]
    rfl
  | true =>
  rw [if_neg (show ¬ ¬ true = true from by decide),
    if_neg (show ¬ ¬ true = true from by decide)]
  have hq : dynEdgeQualifies graph configs dynamic_configs e = true := by
    unfold dynEdgeQualifies
    rw [hv1, hv2]
    rfl
  obtain ⟨hs, ht, hd⟩ := hkeys hq
  rw [atKey_present dynamic_configs _ hd, exbind_ok]
  try dsimp only
  rw [atKey_present configs _ hs, atKey_present configs _ ht]
  cases hex : List.lookup (graph.getNode e.source).layer st.layer_markers with
  | none =>
    simp only [Option.isNone_none]
    rw [if_pos trivial, if_pos trivial, exbind_ok]
    try dsimp only
    rw [expure_bind]
    try dsimp only
    rw [lookup_aset_self, lookup_aset_self]
    simp only [Option.getD_some]
    rw [if_pos (le_refl _), if_pos (le_refl _), exbind_ok]
    try dsimp only
    rw [exbind_ok]
    try dsimp only
    rfl
  | some m0 =>
    simp only [Option.isNone_some]
    rw [if_neg (show ¬ (false = true) from by decide),
      if_neg (show ¬ (false = true) from by decide), expure_bind]
    try dsimp only
    by_cases hge : (List.lookup (graph.getNode e.source).layer
        st.num_since_last_insertion).getD 0 ≥
        (dynamic_configs.get (getConfigLayer graph (graph.getNode e.source)
          (graph.getNode e.target))).interlayer_edge_insertion_skip
    case pos =>
      rw [if_pos hge, if_pos hge, exbind_ok]
      try dsimp only
      rw [exbind_ok]
      try dsimp only
      rfl
    case neg =>
      rw [if_neg hge, if_neg hge]
      rfl

/-- A successful lookup value is among the mapped values. -/
theorem lookup_some_mem_snd {α : Type} :
    ∀ (l : List (ℕ × α)) (k : ℕ) (v : α),
      List.lookup k l = some v → v ∈ l.map Prod.snd := by
  intro l
  induction l with
  | nil =>
    intro k v h
    cases h
  | cons hd t ih =>
    intro k v h
    obtain ⟨k2, v2⟩ := hd
    by_cases hk : k = k2
    · rw [hk, lookup_cons_self] at h
      cases h
      simp
    · rw [lookup_cons_ne _ _ _ _ hk] at h
      simp only [List.map_cons, List.mem_cons]
      exact Or.inr (ih k v h)

/-- A successful lookup key is among the keys. -/
theorem lookup_some_mem_fst {α : Type} :
    ∀ (l : List (ℕ × α)) (k : ℕ) (v : α),
      List.lookup k l = some v → k ∈ l.map Prod.fst := by
  intro l
  induction l with
  | nil =>
    intro k v h
    cases h
  | cons hd t ih =>
    intro k v h
    obtain ⟨k2, v2⟩ := hd
    by_cases hk : k = k2
    · rw [hk]
      simp
    · rw [lookup_cons_ne _ _ _ _ hk] at h
      simp only [List.map_cons, List.mem_cons]
      exact Or.inr (ih k v h)

/-- With distinct keys, every stored value is reachable by lookup. -/
theorem mem_snd_lookup {α : Type} :
    ∀ l : List (ℕ × α), (l.map Prod.fst).Nodup →
      ∀ v ∈ l.map Prod.snd, ∃ k, List.lookup k l = some v := by
  intro l
  induction l with
  | nil =>
    intro _ v hv
    cases hv
  | cons hd t ih =>
    intro hnd v hv
    obtain ⟨k2, v2⟩ := hd
    simp only [List.map_cons, List.nodup_cons] at hnd
    rcases List.mem_cons.mp hv with hv | hv
    · subst hv
      exact ⟨k2, lookup_cons_self k2 v t⟩
    · obtain ⟨k, hk⟩ := ih hnd.2 v hv
      have hkne : k ≠ k2 := by
        intro he
        subst he
        exact hnd.1 (lookup_some_mem_fst t k v hk)
      exact ⟨k, by rw [lookup_cons_ne _ _ _ _ hkne]; exact hk⟩

/-- A namespace with one qualifying edge draws at least one segment. -/
theorem two_le_ceilSegs (k E : ℕ) (hE : 1 ≤ E) :
    2 ≤ 2 * ((E + k) / (k + 1)) := by
  have h1 : 1 ≤ (E + k) / (k + 1) := by
    rw [Nat.le_div_iff_mul_le (Nat.succ_pos k)]
    omega
  omega

/-- Claim C4: in both the static and the dynamic inter-layer aggregation,
each namespace (keyed by the source layer) keeps its own skip counter,
created at value `k` so that its first qualifying edge is always drawn; on a
draw the counter resets to 0, otherwise it increments and the edge is
dropped (this is the `EdgeInv`/`DynEdgeInv` invariant maintained by
`graphEdgeStep_inv` and `dynamicGraphEdgeStep_inv`).  Consequently a
namespace with `E ≥ 1` qualifying edges and skip factor `k` holds exactly
`ceil (E / (k+1)) = (E + k) / (k + 1)` drawn edges (two points each) and at
least one drawn edge.  The dynamic variant is stated over the faithful
builder `makeDynamicGraphEdgeMarkersE`, whose unguarded `map::at` lookups
can throw: the counts hold under the explicit hypothesis that every config
key a qualifying edge reaches is present (otherwise the call aborts with
`std::out_of_range` and draws nothing — see the counterexample
preceding the witness), and, the skip factor being taken from
`getConfigLayer`, under the hypothesis that it is per-key constant
(`kfun`). -/
theorem edgeInsertionSkip_spec (header : String) (graph : DynamicSceneGraph)
    (configs : ConfigMap LayerConfig)
    (dynamic_configs : ConfigMap DynamicLayerConfig)
    (visualizer_config : VisualizerConfig) ( ns_prefix : String)
    (filter : FilterFunction) (kfun : ℕ → ℕ) :
    (∀ st, graph.interlayer_edges.foldlM
        (graphEdgeStep header configs visualizer_config ns_prefix filter
          graph) {} = .ok st →
      makeGraphEdgeMarkers header graph configs visualizer_config ns_prefix
          filter = .ok (st.layer_markers.map Prod.snd) ∧
      ∀ L, 1 ≤ interEdgeCount graph configs filter L graph.interlayer_edges →
        ∃ m, List.lookup L st.layer_markers = some m ∧
          m.points.length =
            2 * ((interEdgeCount graph configs filter L graph.interlayer_edges +
                (configs.get L).interlayer_edge_insertion_skip) /
              ((configs.get L).interlayer_edge_insertion_skip + 1)) ∧
          2 ≤ m.points.length) ∧
    ((∀ e ∈ graph.dynamic_interlayer_edges,
        dynEdgeQualifies graph configs dynamic_configs e = true →
        configs.hasKey (graph.getNode e.source).layer = true ∧
        configs.hasKey (graph.getNode e.target).layer = true ∧
        dynamic_configs.hasKey (getConfigLayer graph (graph.getNode e.source)
          (graph.getNode e.target)) = true) →
      (∀ e ∈ graph.dynamic_interlayer_edges,
        dynEdgeQualifies graph configs dynamic_configs e = true →
        dynK graph dynamic_configs e = kfun (interEdgeKey graph e)) →
      graph.dynamic_interlayer_edges.foldlM
          (dynamicGraphEdgeStepE header configs dynamic_configs
            visualizer_config ns_prefix graph) {} =
        .ok (graph.dynamic_interlayer_edges.foldl
          (dynamicGraphEdgeStep header configs dynamic_configs
            visualizer_config ns_prefix graph) {}) ∧
      makeDynamicGraphEdgeMarkersE header graph configs dynamic_configs
          visualizer_config ns_prefix =
        .ok (makeDynamicGraphEdgeMarkers header graph configs dynamic_configs
          visualizer_config ns_prefix) ∧
      ∀ L, 1 ≤ dynEdgeCount graph configs dynamic_configs L
          graph.dynamic_interlayer_edges →
        ∃ m, List.lookup L (graph.dynamic_interlayer_edges.foldl
            (dynamicGraphEdgeStep header configs dynamic_configs
              visualizer_config ns_prefix graph) {}).layer_markers = some m ∧
          m ∈ makeDynamicGraphEdgeMarkers header graph configs dynamic_configs
            visualizer_config ns_prefix ∧
          m.points.length =
            2 * ((dynEdgeCount graph configs dynamic_configs L
                graph.dynamic_interlayer_edges + kfun L) / (kfun L + 1)) ∧
          2 ≤ m.points.length) := by
  constructor
  · intro st hfold
    have hinv := graphEdgeFold_inv header configs visualizer_config ns_prefix
      filter graph graph.interlayer_edges [] {} st hfold
      (EdgeInv_init graph configs filter)
    rw [List.nil_append] at hinv
    obtain ⟨hnodup, hL⟩ := hinv
    constructor
    · unfold makeGraphEdgeMarkers
      rw [hfold]
      rfl
    · intro L hE
      obtain ⟨m, hm, hlen, hcol, hctr⟩ := (hL L).2 hE
      exact ⟨m, hm, hlen, by rw [hlen]; exact two_le_ceilSegs _ _ hE⟩
  · intro hkeysAll hk
    have hfoldE : graph.dynamic_interlayer_edges.foldlM
        (dynamicGraphEdgeStepE header configs dynamic_configs
          visualizer_config ns_prefix graph) {} =
        .ok (graph.dynamic_interlayer_edges.foldl
          (dynamicGraphEdgeStep header configs dynamic_configs
            visualizer_config ns_prefix graph) {}) :=
      foldlM_except_ok
        (dynamicGraphEdgeStepE header configs dynamic_configs
          visualizer_config ns_prefix graph)
        (dynamicGraphEdgeStep header configs dynamic_configs
          visualizer_config ns_prefix graph)
        graph.dynamic_interlayer_edges {}
        (fun a ha s2 => dynamicGraphEdgeStepE_ok header configs
          dynamic_configs visualizer_config ns_prefix graph s2 a
          (hkeysAll a ha))
    refine ⟨hfoldE, ?_, ?_⟩
    · unfold makeDynamicGraphEdgeMarkersE makeDynamicGraphEdgeMarkers
      rw [hfoldE, exbind_ok]
      rfl
    · intro L hE
      have hinv := dynamicGraphEdgeFold_inv header configs dynamic_configs
        visualizer_config ns_prefix graph kfun graph.dynamic_interlayer_edges
        [] {} hk (DynEdgeInv_init graph configs dynamic_configs kfun)
      rw [List.nil_append] at hinv
      obtain ⟨hnodup, hL⟩ := hinv
      obtain ⟨m, hm, hlen, hcol, hctr⟩ := (hL L).2 hE
      refine ⟨m, hm, ?_, hlen, by rw [hlen]; exact two_le_ceilSegs _ _ hE⟩
      unfold makeDynamicGraphEdgeMarkers
      exact lookup_some_mem_snd _ _ _ hm

/-- Claim C5 (amended): the static inter-layer aggregation groups drawn
segments into one batch per source layer: the batch map's keys are distinct;
a source layer has a batch iff it has at least one qualifying edge; every
batch in the returned collection holds at least one drawn segment (so no
batch has zero drawn edges); and the returned collection is exactly the
per-source-layer batches. -/
theorem makeGraphEdgeMarkers_grouping (header : String)
    (graph : DynamicSceneGraph) (configs : ConfigMap LayerConfig)
    (visualizer_config : VisualizerConfig) ( ns_prefix : String)
    (filter : FilterFunction) (st : EdgeListState)
    (hfold : graph.interlayer_edges.foldlM
      (graphEdgeStep header configs visualizer_config ns_prefix filter graph)
      {} = .ok st) :
    makeGraphEdgeMarkers header graph configs visualizer_config ns_prefix
        filter = .ok (st.layer_markers.map Prod.snd) ∧
    (st.layer_markers.map Prod.fst).Nodup ∧
    (∀ L, (List.lookup L st.layer_markers).isSome = true ↔
      1 ≤ interEdgeCount graph configs filter L graph.interlayer_edges) ∧
    (∀ m ∈ st.layer_markers.map Prod.snd, 2 ≤ m.points.length) := by
  have hinv := graphEdgeFold_inv header configs visualizer_config ns_prefix
    filter graph graph.interlayer_edges [] {} st hfold
    (EdgeInv_init graph configs filter)
  rw [List.nil_append] at hinv
  obtain ⟨hnodup, hL⟩ := hinv
  refine ⟨?_, hnodup, ?_, ?_⟩
  · unfold makeGraphEdgeMarkers
    rw [hfold]
    rfl
  · intro L
    constructor
    · intro hs
      rcases Nat.eq_zero_or_pos (interEdgeCount graph configs filter L
        graph.interlayer_edges) with h0 | h1
      · obtain ⟨hnone, -⟩ := (hL L).1 h0
        rw [hnone] at hs
        cases hs
      · exact h1
    · intro hE
      obtain ⟨m, hm, -⟩ := (hL L).2 hE
      rw [hm]
      rfl
  · intro m hm
    obtain ⟨L, hLm⟩ := mem_snd_lookup st.layer_markers hnodup m hm
    have hE : 1 ≤ interEdgeCount graph configs filter L
        graph.interlayer_edges := by
      rcases Nat.eq_zero_or_pos (interEdgeCount graph configs filter L
        graph.interlayer_edges) with h0 | h1
      · obtain ⟨hnone, -⟩ := (hL L).1 h0
        rw [hnone] at hLm
        cases hLm
      · exact h1
    obtain ⟨m2, hm2, hlen, -, -⟩ := (hL L).2 hE
    have : m2 = m := by
      rw [hLm] at hm2
      cases hm2
      rfl
    subst this
    rw [hlen]
    exact two_le_ceilSegs _ _ hE

/-- A semantic node of a given id and layer (counterexample constructions). -/
def nodeOf (id layer : ℕ) : SGNode :=
  { id := id, layer := layer, attrs := .semantic {} }

/-- Counterexample graph for C5: two inter-layer edges sharing source layer 2
but ending in different target layers (1 and 0). -/
def cexGraph : DynamicSceneGraph :=
  { getNode := fun i =>
      if i = 1 then nodeOf 1 2 else if i = 2 then nodeOf 2 1 else nodeOf 3 0,
    interlayer_edges := [{ source := 1, target := 2 }, { source := 1, target := 3 }] }

/-- All-layers-configured config map with default per-layer settings (skip 0,
visualize on, no edge coloring). -/
def cexConfigs : ConfigMap LayerConfig :=
  { hasKey := fun _ => true, get := fun _ => {} }

/-- Counterexample to C5 as stated: both edges qualify, their (source,
target) layer pairs differ (2,1) vs (2,0), yet the builder returns a single
batch containing both drawn segments (4 points), named after the first pair.
The claim required the two edges to land in different batches. -/
theorem graphEdgeMarkers_layerPair_cex :
    (makeGraphEdgeMarkers "h" cexGraph cexConfigs {} "p" none).toOption.map
        (fun l => (l.length, l.map fun m => (m.ns, m.points.length))) =
      some (1, [("p2_1", 4)]) ∧
    interEdgeQualifies cexGraph cexConfigs none
      { source := 1, target := 2 } = true ∧
    interEdgeQualifies cexGraph cexConfigs none
      { source := 1, target := 3 } = true ∧
    ((cexGraph.getNode 1).layer, (cexGraph.getNode 2).layer) ≠
      ((cexGraph.getNode 1).layer, (cexGraph.getNode 3).layer) := by
  refine ⟨?_, by decide, by decide, by decide⟩
  decide

/-- Counterexample graph for C4's dynamic variant: one dynamic inter-layer
edge from dynamic node 1 (layer 2) to static node 2 (layer 1). -/
def cexGraphC4 : DynamicSceneGraph :=
  { getNode := fun i => if i = 1 then nodeOf 1 2 else nodeOf 2 1,
    dynamic_interlayer_edges := [{ source := 1, target := 2 }],
    isDynamic := fun i => i == 1 }

/-- Counterexample static configs for C4: layer 1 (the static target's)
configured and visible, layer 2 (the dynamic source's) absent, so
`configs.at(2)` throws. -/
def cexConfigsC4 : ConfigMap LayerConfig :=
  { hasKey := fun l => l == 1, get := fun _ => {} }

/-- Counterexample dynamic configs for C4: layer 2 visible with inter-layer
edges on and insertion skip 0 (the defaults). -/
def cexDynConfigsC4 : ConfigMap DynamicLayerConfig :=
  { hasKey := fun l => l == 2, get := fun _ => {} }

/-- Counterexample to claim C4 as stated for the dynamic variant: the
namespace of source layer 2 has exactly one qualifying edge and skip factor
0, so the claim promises exactly ceil(1/1) = 1 drawn edge — the first
qualifying edge of a namespace is always drawn.  But `shouldVisualize`
checks only the dynamic configs for the dynamic source node, and the
unguarded `configs.at(source.layer)` at visualizer_utilities.cpp:720 then
throws `std::out_of_range` for its unconfigured layer 2: the call aborts
and draws nothing. -/
theorem dynamicEdgeMarkers_missing_config_cex :
    dynEdgeQualifies cexGraphC4 cexConfigsC4 cexDynConfigsC4
        { source := 1, target := 2 } = true ∧
    dynEdgeCount cexGraphC4 cexConfigsC4 cexDynConfigsC4 2
        cexGraphC4.dynamic_interlayer_edges = 1 ∧
    dynK cexGraphC4 cexDynConfigsC4 { source := 1, target := 2 } = 0 ∧
    makeDynamicGraphEdgeMarkersE "h" cexGraphC4 cexConfigsC4 cexDynConfigsC4
        {} "p" = .error () := by
  refine ⟨by decide, by decide, by decide, ?_⟩
  rfl

/-- Witness graph for C4: five inter-layer edges from layer 2 to layer 1
(the spec scenario: skip = 2 gives ceil(5/3) = 2 drawn edges), plus one
dynamic inter-layer edge. -/
def witGraphC4 : DynamicSceneGraph :=
  { getNode := fun i => if i ≤ 5 then nodeOf i 2 else nodeOf i 1,
    interlayer_edges :=
      [{ source := 1, target := 6 }, { source := 2, target := 6 },
       { source := 3, target := 6 }, { source := 4, target := 6 },
       { source := 5, target := 6 }],
    dynamic_interlayer_edges := [{ source := 1, target := 6 }] }

/-- Witness configs for C4: every layer visible with insertion skip 2. -/
def witConfigsC4 : ConfigMap LayerConfig :=
  { hasKey := fun _ => true,
    get := fun _ => { interlayer_edge_insertion_skip := 2 } }

/-- Witness dynamic configs for C4: defaults (skip 0). -/
def witDynConfigsC4 : ConfigMap DynamicLayerConfig :=
  { hasKey := fun _ => true, get := fun _ => {} }

/-- Witness for C4: on five qualifying edges with skip 2 the static
aggregation draws exactly ceil(5/3) = 2 edges (4 points); with every config
key present the faithful dynamic builder returns its key-present reduct,
which with skip 0 draws its single qualifying edge. -/
theorem edgeInsertionSkip_spec_witness :
    (witGraphC4.interlayer_edges.foldlM
        (graphEdgeStep "h" witConfigsC4 {} "p" none witGraphC4)
        {}).toOption.map
        (fun st => st.layer_markers.map fun p => (p.1, p.2.points.length)) =
      some [(2, 4)] ∧
    (∃ st, witGraphC4.interlayer_edges.foldlM
        (graphEdgeStep "h" witConfigsC4 {} "p" none witGraphC4) {} = .ok st ∧
      makeGraphEdgeMarkers "h" witGraphC4 witConfigsC4 {} "p" none =
        .ok (st.layer_markers.map Prod.snd) ∧
      ∃ m, List.lookup 2 st.layer_markers = some m ∧
        m.points.length = 2 * ((5 + 2) / 3) ∧ 2 ≤ m.points.length) ∧
    (makeDynamicGraphEdgeMarkersE "h" witGraphC4 witConfigsC4 witDynConfigsC4
        {} "p" =
      .ok (makeDynamicGraphEdgeMarkers "h" witGraphC4 witConfigsC4
        witDynConfigsC4 {} "p") ∧
     ∃ m, List.lookup 2 (witGraphC4.dynamic_interlayer_edges.foldl
        (dynamicGraphEdgeStep "h" witConfigsC4 witDynConfigsC4 {} "p"
          witGraphC4) {}).layer_markers = some m ∧
      m ∈ makeDynamicGraphEdgeMarkers "h" witGraphC4 witConfigsC4
        witDynConfigsC4 {} "p" ∧
      m.points.length = 2) := by
  have hconc : (witGraphC4.interlayer_edges.foldlM
      (graphEdgeStep "h" witConfigsC4 {} "p" none witGraphC4)
      {}).toOption.map
      (fun st => st.layer_markers.map fun p => (p.1, p.2.points.length)) =
      some [(2, 4)] := by decide
  refine ⟨hconc, ?_, ?_⟩
  · cases hf : witGraphC4.interlayer_edges.foldlM
        (graphEdgeStep "h" witConfigsC4 {} "p" none witGraphC4) {} with
    | error u =>
      rw [hf] at hconc
      cases hconc
    | ok st =>
      obtain ⟨hmk, hL⟩ :=
        (edgeInsertionSkip_spec "h" witGraphC4 witConfigsC4 witDynConfigsC4
          {} "p" none (fun _ => 0)).1 st hf
      have hE : 1 ≤ interEdgeCount witGraphC4 witConfigsC4 none 2
          witGraphC4.interlayer_edges := by decide
      obtain ⟨m, hm, hlen, h2⟩ := hL 2 hE
      refine ⟨st, rfl, hmk, m, hm, ?_, h2⟩
      rw [hlen,
        show interEdgeCount witGraphC4 witConfigsC4 none 2
          witGraphC4.interlayer_edges = 5 from by decide,
        show (witConfigsC4.get 2).interlayer_edge_insertion_skip = 2 from rfl]
  · have hkeysAll : ∀ e ∈ witGraphC4.dynamic_interlayer_edges,
        dynEdgeQualifies witGraphC4 witConfigsC4 witDynConfigsC4 e = true →
        witConfigsC4.hasKey (witGraphC4.getNode e.source).layer = true ∧
        witConfigsC4.hasKey (witGraphC4.getNode e.target).layer = true ∧
        witDynConfigsC4.hasKey (getConfigLayer witGraphC4
          (witGraphC4.getNode e.source) (witGraphC4.getNode e.target)) =
          true := by decide
    have hk : ∀ e ∈ witGraphC4.dynamic_interlayer_edges,
        dynEdgeQualifies witGraphC4 witConfigsC4 witDynConfigsC4 e = true →
        dynK witGraphC4 witDynConfigsC4 e = 0 := by decide
    have hE : 1 ≤ dynEdgeCount witGraphC4 witConfigsC4 witDynConfigsC4 2
        witGraphC4.dynamic_interlayer_edges := by decide
    obtain ⟨hfoldE, hmkE, hL⟩ :=
      (edgeInsertionSkip_spec "h" witGraphC4 witConfigsC4 witDynConfigsC4
        {} "p" none (fun _ => 0)).2 hkeysAll hk
    obtain ⟨m, hm, hmem, hlen, -⟩ := hL 2 hE
    refine ⟨hmkE, m, hm, hmem, ?_⟩
    rw [hlen,
      show dynEdgeCount witGraphC4 witConfigsC4 witDynConfigsC4 2
        witGraphC4.dynamic_interlayer_edges = 1 from by decide]

/-- Witness for C5 (amended) on the five-edge graph: the fold succeeds, the
output has one batch (for source layer 2), keyed uniquely, and every batch
has at least one segment. -/
theorem makeGraphEdgeMarkers_grouping_witness :
    ∃ st, witGraphC4.interlayer_edges.foldlM
        (graphEdgeStep "h" witConfigsC4 {} "p" none witGraphC4) {} = .ok st ∧
      makeGraphEdgeMarkers "h" witGraphC4 witConfigsC4 {} "p" none =
        .ok (st.layer_markers.map Prod.snd) ∧
      (st.layer_markers.map Prod.fst).Nodup ∧
      (List.lookup 2 st.layer_markers).isSome = true ∧
      (List.lookup 0 st.layer_markers).isSome = false ∧
      ∀ m ∈ st.layer_markers.map Prod.snd, 2 ≤ m.points.length := by
  have hconc : (witGraphC4.interlayer_edges.foldlM
      (graphEdgeStep "h" witConfigsC4 {} "p" none witGraphC4)
      {}).toOption.map
      (fun st => st.layer_markers.map fun p => (p.1, p.2.points.length)) =
      some [(2, 4)] := by decide
  cases hf : witGraphC4.interlayer_edges.foldlM
      (graphEdgeStep "h" witConfigsC4 {} "p" none witGraphC4) {} with
  | error u =>
    rw [hf] at hconc
    cases hconc
  | ok st =>
    obtain ⟨hmk, hnodup, hiff, hseg⟩ :=
      makeGraphEdgeMarkers_grouping "h" witGraphC4 witConfigsC4 {} "p" none
        st hf
    refine ⟨st, rfl, hmk, hnodup, ?_, ?_, hseg⟩
    · exact (hiff 2).mpr (by decide)
    · cases hs : (List.lookup 0 st.layer_markers).isSome with
      | false => rfl
      | true =>
        have := (hiff 0).mp hs
        have hzero : interEdgeCount witGraphC4 witConfigsC4 none 0
            witGraphC4.interlayer_edges = 0 := by decide
        rw [hzero] at this
        cases this

/-! ## Intra-layer edge markers (C6) -/

/-- The filter check of the intra-layer loop (visualizer_utilities.cpp:1086):
`filter && (!filter(source_node) || !filter(target_node))`. -/
def layerEdgeFilterRejects (filter : FilterFunction)
    (source_node target_node : SGNode) : Bool :=
  match filter with
  | none => false
  | some f => !f source_node || !f target_node

/-- The while loop of `makeLayerEdgeMarkers`
(visualizer_utilities.cpp:1082-1108), as a fuel-indexed step function;
`cursor` is the edge iterator rendered as an index into the edge list, and
`none` means the fuel ran out with the loop still running (the C++ loop has
no fuel, so an input on which every fuel returns `none` is an input on which
the C++ loop never terminates).  Line 1086-1088 is translated exactly: on a
rejected edge the loop `continue`s WITHOUT advancing `edge_iter`.
(`std::advance` past `end()` is undefined behaviour for the C++ map
iterator; it is modelled as reaching the end.) -/
def layerEdgeLoop (config : LayerConfig) (layer : SceneGraphLayer)
    (visualizer_config : VisualizerConfig) (color_func : EdgeColorFunction)
    (filter : FilterFunction) : ℕ → ℕ → Marker → Option Marker
  | 0, _, _ => none
  | fuel + 1, cursor, marker =>
    if h : cursor < layer.edges.length then
      let edge := layer.edges.get ⟨cursor, h⟩
      let source_node := layer.getNode edge.source
      let target_node := layer.getNode edge.target
      if layerEdgeFilterRejects filter source_node target_node then
        layerEdgeLoop config layer visualizer_config color_func filter fuel
          cursor marker
      else
        let source : Point :=
          { source_node.attrs.position with
            z := source_node.attrs.position.z +
              getZOffset config visualizer_config }
        let target : Point :=
          { target_node.attrs.position with
            z := target_node.attrs.position.z +
              getZOffset config visualizer_config }
        let marker :=
          { marker with
            points := marker.points ++ [source, target],
            colors := marker.colors ++
              [makeColorMsg (color_func source_node target_node edge true)
                config.intralayer_edge_alpha,
               makeColorMsg (color_func source_node target_node edge false)
                config.intralayer_edge_alpha] }
        layerEdgeLoop config layer visualizer_config color_func filter fuel
          (cursor + config.intralayer_edge_insertion_skip + 1) marker
    else some marker

/-- C++ `makeLayerEdgeMarkers` (EdgeColorFunction overload,
visualizer_utilities.cpp:1065-1111), fuel-indexed through its while loop. -/
def makeLayerEdgeMarkers (fuel : ℕ) (header : String) (config : LayerConfig)
    (layer : SceneGraphLayer) (visualizer_config : VisualizerConfig)
    (ns : String) (color_func : EdgeColorFunction)
    (filter : FilterFunction) : Option Marker :=
  layerEdgeLoop config layer visualizer_config color_func filter fuel 0
    { header := header, type := .lineList, id := 0, ns := ns, action := .add,
      scaleX := config.intralayer_edge_scale, posePosition := {} }

/-- Failing input for C6: a single-edge layer whose source node the filter
rejects. -/
def cexLayerC6 : SceneGraphLayer :=
  { nodes := [nodeOf 1 2, nodeOf 2 2],
    edges := [{ source := 1, target := 2 }],
    getNode := fun i => if i = 1 then nodeOf 1 2 else nodeOf 2 2 }

/-- A filter rejecting node id 1 (the edge's source). -/
def cexFilterC6 : FilterFunction :=
  some fun n => n.id != 1

/-- Claim C6 is violated by the code: on a layer whose only edge has a
filtered-out endpoint, the `continue` at visualizer_utilities.cpp:1087 skips
`std::advance`, so the iterator never moves and the while loop runs forever —
the fuel-indexed loop returns `none` for EVERY fuel, i.e. the builder does
not run to completion.  By contrast, with no filter installed the same input
terminates within 2 steps. -/
theorem makeLayerEdgeMarkers_diverges :
    (∀ fuel : ℕ, ∀ header ns : String, ∀ cf : EdgeColorFunction,
      makeLayerEdgeMarkers fuel header {} cexLayerC6 {} ns cf cexFilterC6 =
        none) ∧
    (∃ m, makeLayerEdgeMarkers 2 "h" {} cexLayerC6 {} "edges"
      (fun _ _ _ _ => {}) none = some m) := by
  constructor
  · intro fuel
    induction fuel with
    | zero =>
      intro header ns cf
      rfl
    | succ n ih =>
      intro header ns cf
      show layerEdgeLoop {} cexLayerC6 {} cf cexFilterC6 (n + 1) 0 _ = none
      unfold layerEdgeLoop
      rw [dif_pos (show (0 : ℕ) < cexLayerC6.edges.length from by decide)]
      rw [if_pos (show layerEdgeFilterRejects cexFilterC6
        (cexLayerC6.getNode (cexLayerC6.edges.get
          ⟨0, by decide⟩).source)
        (cexLayerC6.getNode (cexLayerC6.edges.get
          ⟨0, by decide⟩).target) = true from by decide)]
      exact ih header ns cf
  · exact ⟨_, rfl⟩

/-! ## Attribute-kind mismatch handling (C8) -/

/-- Modelled from the spec: `NodeSymbol(node.id).getLabel()` (spark_dsg) is
"a human-readable encoding of the node's identity" (spec 4.8). -/
def nodeSymbolLabel (id : ℕ) : String :=
  "node_" ++ toString id

/-- C++ `makeTextMarker` (visualizer_utilities.cpp:423-457).  The semantic
attribute cast is wrapped in try/catch: on a mismatch `name` stays empty and
the text falls back to the node-symbol label.  The random vertical jitter is
injected as the `z_jitter` sample (per spec 9 the random source should be
injectable); it is applied only when `add_label_jitter` is set. -/
def makeTextMarker (header : String) (config : LayerConfig) (node : SGNode)
    (visualizer_config : VisualizerConfig) (ns : String) (z_jitter : ℚ) :
    Marker :=
  let name :=
    match node.attrs.asSemantic with
    | .ok a => a.name
    | .error _ => ""
  { header := header, ns := ns, id := node.id, type := .textViewFacing,
    action := .add,
    text := if name = "" then nodeSymbolLabel node.id else name,
    scaleZ := config.label_scale,
    color := makeColorMsgD {},
    posePosition :=
      { node.attrs.position with
        z := node.attrs.position.z + getZOffset config visualizer_config +
          config.label_height +
          (if config.add_label_jitter then
            config.label_jitter_scale * z_jitter
          else 0) } }

/-- A layer holding one node of plain (basic) attribute kind. -/
def cexBasicLayer : SceneGraphLayer :=
  { nodes := [{ id := 9, layer := 2, attrs := .basic {} }] }

/-- Counterexample to C8 as stated: the ellipse-boundary builder performs
the Place2d cast with no catch (visualizer_utilities.cpp:122), so a node of
the wrong attribute kind makes the whole call propagate the type error to
the caller instead of resolving to a default inside this core. -/
theorem attrMismatch_propagates_cex :
    makeLayerEllipseBoundaries "h" {} cexBasicLayer {} "places"
      (fun _ => (1, 0)) = .error () := rfl

/-- Claim C8 (amended): only `makeTextMarker` resolves a mismatched
attribute kind inside this core — its try/catch leaves the name empty and
the marker falls back to the node-symbol label, still returning a
well-formed batch.  Builders whose typed attribute access has no catch
propagate the failure: any layer containing a node whose Place2d cast fails
makes the ellipse-boundary builder return the error to its caller. -/
theorem attrMismatch_spec (header : String) (config : LayerConfig)
    (node : SGNode) (visualizer_config : VisualizerConfig) (ns : String)
    (z_jitter : ℚ) :
    (node.attrs.asSemantic = .error () →
      (makeTextMarker header config node visualizer_config ns
        z_jitter).text = nodeSymbolLabel node.id) ∧
    (∀ (layer : SceneGraphLayer) (cossin : ℚ → ℚ × ℚ),
      (∃ n ∈ layer.nodes, n.attrs.asPlace2d = .error ()) →
      makeLayerEllipseBoundaries header config layer visualizer_config ns
        cossin = .error ()) := by
  constructor
  · intro herr
    unfold makeTextMarker
    rw [herr]
    dsimp only
    rw [if_pos rfl]
  · intro layer cossin ⟨n, hn, herr⟩
    unfold makeLayerEllipseBoundaries
    refine foldlM_except_error _ n layer.nodes hn ?_ _
    intro s
    show n.attrs.asPlace2d >>= _ = _
    rw [herr]
    rfl

/-- Witness for C8 (amended) on a basic-kinded node: the text marker falls
back to the symbol label; the ellipse builder propagates the error. -/
theorem attrMismatch_spec_witness :
    (makeTextMarker "h" {} { id := 9, layer := 2, attrs := .basic {} } {}
      "t" 0).text = nodeSymbolLabel 9 ∧
    makeLayerEllipseBoundaries "h" {} cexBasicLayer {} "t"
      (fun _ => (1, 0)) = .error () := by
  constructor
  · exact (attrMismatch_spec "h" {} { id := 9, layer := 2, attrs := .basic {} }
      {} "t" 0).1 rfl
  · exact (attrMismatch_spec "h" {} { id := 9, layer := 2, attrs := .basic {} }
      {} "t" 0).2 cexBasicLayer (fun _ => (1, 0))
      ⟨{ id := 9, layer := 2, attrs := .basic {} },
        List.mem_singleton.mpr rfl, rfl⟩

/-! ## Dynamic label marker (C10) -/

/-- A dynamic (time-indexed) layer as consumed here: node positions in
sequence order. -/
structure DynamicSceneGraphLayer where
  positions : List Point := []

/-- C++ `layer.numNodes()`. -/
def DynamicSceneGraphLayer.numNodes (l : DynamicSceneGraphLayer) : ℕ :=
  l.positions.length

/-- C++ `layer.getPositionByIndex(i)` (external spark_dsg): sequence-indexed
position lookup; an out-of-range index is not defined by the container and
is modelled as `none`. -/
def DynamicSceneGraphLayer.getPositionByIndex (l : DynamicSceneGraphLayer)
    (i : ℕ) : Option Point :=
  l.positions.get? i

/-- C++ `makeDynamicLabelMarker` (visualizer_utilities.cpp:1201-1225).  The
read is at `layer.numNodes() - 1`, a `size_t` subtraction that wraps to
`2^64 - 1` when the layer is empty — rendered exactly as
`(numNodes + (2^64 - 1)) % 2^64`, which equals `numNodes - 1` for any
nonempty layer of fewer than `2^64` nodes and is out of range (so the
result is `none`) for an empty layer. -/
def makeDynamicLabelMarker (header : String) (config : DynamicLayerConfig)
    (layer : DynamicSceneGraphLayer) (visualizer_config : VisualizerConfig)
    (ns : String) (marker_id : ℕ) : Option Marker := do
  let idx := (layer.numNodes + (2 ^ 64 - 1)) % 2 ^ 64
  let latest_position ← layer.getPositionByIndex idx
  some
    { header := header, type := .textViewFacing, ns := ns, id := marker_id,
      action := .add, text := "Agent", scaleZ := config.label_scale,
      color := makeColorMsgD {},
      posePosition :=
        { latest_position with
          z := latest_position.z +
            getZOffsetScale config.z_offset_scale visualizer_config +
            config.label_height } }

/-- Claim C10: `makeDynamicLabelMarker` is well-defined only for a non-empty
dynamic layer — on an empty layer the `numNodes() - 1` read underflows and
the position lookup is out of range (`none` here); on any non-empty layer
(of fewer than 2^64 nodes) it returns exactly one text marker anchored at
the position of the last node in sequence order, plus the z-offset and the
label height. -/
theorem makeDynamicLabelMarker_spec (header : String)
    (config : DynamicLayerConfig) (layer : DynamicSceneGraphLayer)
    (visualizer_config : VisualizerConfig) (ns : String) (marker_id : ℕ) :
    (layer.numNodes = 0 →
      makeDynamicLabelMarker header config layer visualizer_config ns
        marker_id = none) ∧
    (1 ≤ layer.numNodes → layer.numNodes < 2 ^ 64 →
      ∃ p, layer.positions.get? (layer.numNodes - 1) = some p ∧
        makeDynamicLabelMarker header config layer visualizer_config ns
          marker_id = some
          { header := header, type := .textViewFacing, ns := ns,
            id := marker_id, action := .add, text := "Agent",
            scaleZ := config.label_scale, color := makeColorMsgD {},
            posePosition :=
              { p with
                z := p.z +
                  getZOffsetScale config.z_offset_scale visualizer_config +
                  config.label_height } }) := by
  constructor
  · intro h0
    have hnil : layer.positions = [] := List.length_eq_zero.mp h0
    unfold makeDynamicLabelMarker DynamicSceneGraphLayer.getPositionByIndex
    rw [hnil]
    rfl
  · intro h1 hlt
    have hidx : (layer.numNodes + (2 ^ 64 - 1)) % 2 ^ 64 =
        layer.numNodes - 1 := by omega
    have hlen : layer.numNodes - 1 < layer.positions.length := by
      show _ < layer.numNodes
      omega
    cases hp : layer.positions.get? (layer.numNodes - 1) with
    | none =>
      exfalso
      rw [List.get?_eq_none] at hp
      have : layer.numNodes ≤ layer.numNodes - 1 := hp
      omega
    | some p =>
      refine ⟨p, rfl, ?_⟩
      unfold makeDynamicLabelMarker DynamicSceneGraphLayer.getPositionByIndex
      dsimp only
      rw [hidx, hp]
      rfl

/-- Witness for C10: the empty layer yields no marker; a two-node layer
anchors the single marker at the second node's position. -/
theorem makeDynamicLabelMarker_spec_witness :
    makeDynamicLabelMarker "h" {} { positions := [] } {} "agent" 0 = none ∧
    ∃ p, ({ positions := [{}, { x := 3, y := 4, z := 5 }] } :
        DynamicSceneGraphLayer).positions.get? 1 = some p ∧
      ∃ m, makeDynamicLabelMarker "h" {}
        { positions := [{}, { x := 3, y := 4, z := 5 }] } {} "agent" 0 =
          some m ∧ m.text = "Agent" := by
  constructor
  · exact (makeDynamicLabelMarker_spec "h" {} { positions := [] } {} "agent"
      0).1 rfl
  · obtain ⟨p, hp, hm⟩ := (makeDynamicLabelMarker_spec "h" {}
      { positions := [{}, { x := 3, y := 4, z := 5 }] } {} "agent" 0).2
      (by decide) (by norm_num [DynamicSceneGraphLayer.numNodes])
    exact ⟨p, hp, _, hm, rfl⟩

/-! ## Line-list batch shape invariants (C9) -/

/-- The i-th boundary vertex at the node's height
(visualizer_utilities.cpp:229-234). -/
def polyBoundaryPoint (s : SemanticAttrs) (p : Place2dAttrs) (i : ℕ) :
    Point :=
  { p.boundary.getD i {} with z := s.base.position.z }

/-- The value of `last_point` entering polygon iteration i: the closing
vertex `boundary.back()` for i = 0 (visualizer_utilities.cpp:226), else
vertex i - 1. -/
def polyPrevPoint (s : SemanticAttrs) (p : Place2dAttrs) (i : ℕ) : Point :=
  if i = 0 then
    { p.boundary.getLast?.getD {} with z := s.base.position.z }
  else polyBoundaryPoint s p (i - 1)

/-- C++ `makeLayerPolygonBoundaries` (visualizer_utilities.cpp:193-241).
Each iteration pushes the previous `last_point` and then boundary vertex i,
rendered as appending the pair. -/
def makeLayerPolygonBoundaries (header : String) (config : LayerConfig)
    (layer : SceneGraphLayer) (visualizer_config : VisualizerConfig)
    (ns : String) : Except Unit Marker :=
  let marker : Marker :=
    { header := header, type := .lineList, action := .add, id := 0, ns := ns,
      scaleX := config.boundary_wireframe_scale,
      posePosition :=
        { z := if config.collapse_boundary then 0
               else getZOffset config visualizer_config } }
  layer.nodes.foldlM
    (fun m node => do
      let attrs ← node.attrs.asPlace2d
      if attrs.2.boundary.length ≤ 1 then pure m
      else
        let color :=
          if config.boundary_use_node_color then
            makeColorMsg attrs.1.color config.boundary_alpha
          else makeColorMsg {} config.boundary_alpha
        pure ((List.range attrs.2.boundary.length).foldl
          (fun mk i =>
            { mk with
              points := mk.points ++
                [polyPrevPoint attrs.1 attrs.2 i,
                 polyBoundaryPoint attrs.1 attrs.2 i],
              colors := mk.colors ++ [color, color] })
          m))
    marker

/-- The line-list batch shape invariant of claim C9: an even number of
vertices and per-vertex colors absent, uniform, or matching. -/
def MarkerParity (m : Marker) : Prop :=
  m.points.length % 2 = 0 ∧
    (m.colors.length = 0 ∨ m.colors.length = 1 ∨
      m.colors.length = m.points.length)

/-- The stronger invariant the Except-fold builders maintain. -/
def MarkerEven (m : Marker) : Prop :=
  m.points.length % 2 = 0 ∧ m.colors.length = m.points.length

/-- Invariant `MarkerEven` implies the claim's batch shape. -/
theorem MarkerEven.parity {m : Marker} (h : MarkerEven m) : MarkerParity m :=
  ⟨h.1, Or.inr (Or.inr h.2)⟩

/-- A flatMap of two-element blocks has length twice the list's. -/
theorem flatMap_pairs_length {α β : Type} (f g : α → β) :
    ∀ l : List α, (l.flatMap fun x => [f x, g x]).length = 2 * l.length := by
  intro l
  induction l with
  | nil => rfl
  | cons x xs ih =>
    rw [List.flatMap_cons, List.length_append, ih, List.length_cons]
    simp
    omega

/-- A flatMap of even-length blocks has even length. -/
theorem flatMap_length_even {α β : Type} (f : α → List β) :
    ∀ l : List α, (∀ a ∈ l, (f a).length % 2 = 0) →
      (l.flatMap f).length % 2 = 0 := by
  intro l
  induction l with
  | nil => intro _; rfl
  | cons x xs ih =>
    intro h
    rw [List.flatMap_cons, List.length_append]
    have h1 := h x (List.mem_cons_self x xs)
    have h2 := ih fun a ha => h a (List.mem_cons_of_mem x ha)
    omega

/-- A generic fold-invariant transport. -/
theorem foldl_inv {σ α : Type} (P : σ → Prop) (step : σ → α → σ)
    (hstep : ∀ s a, P s → P (step s a)) :
    ∀ (l : List α) (s : σ), P s → P (l.foldl step s) := by
  intro l
  induction l with
  | nil => intro s h; exact h
  | cons x xs ih =>
    intro s h
    exact ih (step s x) (hstep s x h)

/-- Members of the value list after an assignment. -/
theorem mem_snd_aset {α : Type} :
    ∀ (l : List (ℕ × α)) (k : ℕ) (v x : α),
      x ∈ (aset l k v).map Prod.snd → x = v ∨ x ∈ l.map Prod.snd := by
  intro l
  induction l with
  | nil =>
    intro k v x h
    rcases List.mem_singleton.mp h with h
    exact Or.inl h
  | cons hd t ih =>
    intro k v x h
    obtain ⟨k2, v2⟩ := hd
    unfold aset at h
    by_cases hk : k2 = k
    · rw [if_pos hk] at h
      rcases List.mem_cons.mp h with h | h
      · exact Or.inl h
      · exact Or.inr (by simp only [List.map_cons, List.mem_cons]; exact Or.inr h)
    · rw [if_neg hk] at h
      rcases List.mem_cons.mp h with h | h
      · exact Or.inr (by simp only [List.map_cons, List.mem_cons]; exact Or.inl h)
      · rcases ih k v x h with h | h
        · exact Or.inl h
        · exact Or.inr (by simp only [List.map_cons, List.mem_cons]; exact Or.inr h)

/-- The per-map variant of the batch shape invariant (dynamic variant:
colors stay empty, the batch color field is uniform). -/
def StateParity (st : EdgeListState) : Prop :=
  ∀ m ∈ st.layer_markers.map Prod.snd,
    m.points.length % 2 = 0 ∧ m.colors = []

/-- The dynamic aggregation step preserves the batch shape invariant. -/
theorem dynamicStep_parity (header : String)
    (configs : ConfigMap LayerConfig)
    (dynamic_configs : ConfigMap DynamicLayerConfig)
    (visualizer_config : VisualizerConfig) ( ns_prefix : String)
    (graph : DynamicSceneGraph) :
    ∀ (st : EdgeListState) (e : InterEdge), StateParity st →
      StateParity (dynamicGraphEdgeStep header configs dynamic_configs
        visualizer_config ns_prefix graph st e) := by
  intro st e hP
  unfold dynamicGraphEdgeStep
  dsimp only
  cases hv1 : shouldVisualize graph (graph.getNode e.source) configs
      dynamic_configs with
  | false =>
    rw [if_pos (show ¬ false = true from by decide)]
    exact hP
  | true =>
  rw [if_neg (show ¬ ¬ true = true from by decide)]
  cases hv2 : shouldVisualize graph (graph.getNode e.target) configs
      dynamic_configs with
  | false =>
    rw [if_pos (show ¬ false = true from by decide)]
    exact hP
  | true =>
  rw [if_neg (show ¬ ¬ true = true from by decide)]
  cases hex : List.lookup (graph.getNode e.source).layer st.layer_markers with
  | none =>
    simp only [Option.isNone_none]
    rw [if_pos trivial, lookup_aset_self]
    simp only [Option.getD_some]
    rw [if_pos (le_refl _), lookup_aset_self]
    simp only [Option.getD_some]
    intro m hm
    rcases mem_snd_aset _ _ _ _ hm with h | h
    · subst h
      refine ⟨?_, rfl⟩
      simp [makeNewEdgeList]
    · rcases mem_snd_aset _ _ _ _ h with h2 | h2
      · subst h2
        refine ⟨?_, rfl⟩
        simp [makeNewEdgeList]
      · exact hP m h2
  | some m0 =>
    simp only [Option.isNone_some]
    rw [if_neg (show ¬ (false = true) from by decide), hex]
    by_cases hge : (List.lookup (graph.getNode e.source).layer
        st.num_since_last_insertion).getD 0 ≥
        (dynamic_configs.get (getConfigLayer graph (graph.getNode e.source)
          (graph.getNode e.target))).interlayer_edge_insertion_skip
    · rw [if_pos hge]
      simp only [Option.getD_some]
      intro m hm
      rcases mem_snd_aset _ _ _ _ hm with h | h
      · subst h
        have hpm0 := hP m0 (lookup_some_mem_snd _ _ _ hex)
        constructor
        · simp only [List.length_append, List.length_cons, List.length_nil]
          omega
        · exact hpm0.2
      · exact hP m h
    · rw [if_neg hge]
      exact hP

/-- The intra-layer loop preserves the batch shape invariant. -/
theorem layerEdgeLoop_parity (config : LayerConfig) (layer : SceneGraphLayer)
    (visualizer_config : VisualizerConfig) (color_func : EdgeColorFunction)
    (filter : FilterFunction) :
    ∀ (fuel cursor : ℕ) (marker m : Marker),
      layerEdgeLoop config layer visualizer_config color_func filter fuel
        cursor marker = some m →
      MarkerEven marker → MarkerEven m := by
  intro fuel
  induction fuel with
  | zero =>
    intro cursor marker m h
    cases h
  | succ n ih =>
    intro cursor marker m h hP
    unfold layerEdgeLoop at h
    by_cases hc : cursor < layer.edges.length
    · rw [dif_pos hc] at h
      dsimp only at h
      cases hrej : layerEdgeFilterRejects filter
          (layer.getNode (layer.edges.get ⟨cursor, hc⟩).source)
          (layer.getNode (layer.edges.get ⟨cursor, hc⟩).target) with
      | true =>
        rw [hrej, if_pos rfl] at h
        exact ih cursor marker m h hP
      | false =>
        rw [hrej, if_neg (show ¬ (false = true) from by decide)] at h
        refine ih _ _ m h ?_
        obtain ⟨h1, h2⟩ := hP
        constructor
        · simp only [List.length_append, List.length_cons, List.length_nil]
          omega
        · simp only [List.length_append, List.length_cons, List.length_nil,
            h2]
    · rw [dif_neg hc] at h
      cases h
      exact hP

/-- A mesh-fan piece always holds an even number of points. -/
theorem meshFanPiece_even (config : LayerConfig)
    (visualizer_config : VisualizerConfig) (mesh : Mesh) (cp : Point)
    (j midx : ℕ) :
    (meshFanPiece config visualizer_config mesh cp j midx).length % 2 = 0 := by
  unfold meshFanPiece
  by_cases h1 : j % (config.interlayer_edge_insertion_skip + 1) ≠ 0
  · rw [if_pos h1]
    rfl
  · rw [if_neg h1]
    by_cases h2 : mesh.numVertices ≤ midx
    · rw [if_pos h2]
      rfl
    · rw [if_neg h2]
      simp

/-- Claim C9: every produced line-list batch — ellipse boundary, polygon
boundary, bounding-box wireframe, static inter-layer, dynamic inter-layer,
intra-layer (whenever its loop completes), and mesh-fan — has an even
vertex-sequence length, and its color-sequence length is 0, 1, or exactly
its vertex count. -/
theorem lineListBatch_shape_spec (header : String) (config : LayerConfig)
    (layer : SceneGraphLayer) (visualizer_config : VisualizerConfig)
    (ns : String) (cossin : ℚ → ℚ × ℚ) (func : ColorFunction)
    (filter : FilterFunction) (graph : DynamicSceneGraph)
    (configs : ConfigMap LayerConfig)
    (dynamic_configs : ConfigMap DynamicLayerConfig) ( ns_prefix : String)
    (color_func : EdgeColorFunction) (fuel : ℕ) :
    (∀ m, makeLayerEllipseBoundaries header config layer visualizer_config
      ns cossin = .ok m → MarkerParity m) ∧
    (∀ m, makeLayerPolygonBoundaries header config layer visualizer_config
      ns = .ok m → MarkerParity m) ∧
    (∀ m, makeLayerWireframeBoundingBoxes header config layer
      visualizer_config ns func filter = .ok m → MarkerParity m) ∧
    (∀ markers, makeGraphEdgeMarkers header graph configs visualizer_config
      ns_prefix filter = .ok markers → ∀ m ∈ markers, MarkerParity m) ∧
    (∀ m ∈ makeDynamicGraphEdgeMarkers header graph configs dynamic_configs
      visualizer_config ns_prefix, MarkerParity m) ∧
    (∀ m, makeLayerEdgeMarkers fuel header config layer visualizer_config ns
      color_func filter = some m → MarkerParity m) ∧
    (∀ m, makeMeshEdgesMarker header config visualizer_config graph layer
      ns = .ok m → MarkerParity m) := by
  refine ⟨?_, ?_, ?_, ?_, ?_, ?_, ?_⟩
  · intro m hok
    unfold makeLayerEllipseBoundaries at hok
    refine (foldlM_except_inv MarkerEven _ ?_ layer.nodes _ m hok
      ⟨rfl, rfl⟩).parity
    intro s a s2 hsa hPs
    dsimp only at hsa
    cases hatt : a.attrs.asPlace2d with
    | error u =>
      rw [hatt] at hsa
      cases hsa
    | ok sp =>
      obtain ⟨sem, p⟩ := sp
      rw [hatt] at hsa
      rw [show ∀ f : SemanticAttrs × Place2dAttrs → Except Unit Marker,
          Except.ok (sem, p) >>= f = f (sem, p) from fun _ => rfl] at hsa
      dsimp only at hsa
      by_cases hb : p.boundary.length ≤ 1
      · rw [if_pos hb] at hsa
        cases hsa
        exact hPs
      · rw [if_neg hb, foldl_marker_append
          (fun ix => [ellipseSample cossin sem p (ix - 1),
            ellipseSample cossin sem p ix])
          (fun _ => [makeColorMsg sem.color config.boundary_ellipse_alpha,
            makeColorMsg sem.color config.boundary_ellipse_alpha])] at hsa
        cases hsa
        obtain ⟨h1, h2⟩ := hPs
        constructor
        · simp only [List.length_append]
          rw [flatMap_pairs_length]
          omega
        · simp only [List.length_append]
          rw [flatMap_pairs_length
            (fun ix : ℕ => ellipseSample cossin sem p (ix - 1))
            (fun ix : ℕ => ellipseSample cossin sem p ix),
            flatMap_pairs_length
            (fun _ : ℕ => makeColorMsg sem.color config.boundary_ellipse_alpha)
            (fun _ : ℕ => makeColorMsg sem.color config.boundary_ellipse_alpha),
            h2]
  · intro m hok
    unfold makeLayerPolygonBoundaries at hok
    refine (foldlM_except_inv MarkerEven _ ?_ layer.nodes _ m hok
      ⟨rfl, rfl⟩).parity
    intro s a s2 hsa hPs
    dsimp only at hsa
    cases hatt : a.attrs.asPlace2d with
    | error u =>
      rw [hatt] at hsa
      cases hsa
    | ok sp =>
      obtain ⟨sem, p⟩ := sp
      rw [hatt] at hsa
      rw [show ∀ f : SemanticAttrs × Place2dAttrs → Except Unit Marker,
          Except.ok (sem, p) >>= f = f (sem, p) from fun _ => rfl] at hsa
      dsimp only at hsa
      by_cases hb : p.boundary.length ≤ 1
      · rw [if_pos hb] at hsa
        cases hsa
        exact hPs
      · rw [if_neg hb, foldl_marker_append
          (fun i => [polyPrevPoint sem p i, polyBoundaryPoint sem p i])
          (fun _ =>
            [if config.boundary_use_node_color then
              makeColorMsg sem.color config.boundary_alpha
             else makeColorMsg {} config.boundary_alpha,
             if config.boundary_use_node_color then
              makeColorMsg sem.color config.boundary_alpha
             else makeColorMsg {} config.boundary_alpha])] at hsa
        cases hsa
        obtain ⟨h1, h2⟩ := hPs
        constructor
        · simp only [List.length_append]
          rw [flatMap_pairs_length]
          omega
        · simp only [List.length_append]
          rw [flatMap_pairs_length
            (fun i : ℕ => polyPrevPoint sem p i)
            (fun i : ℕ => polyBoundaryPoint sem p i),
            flatMap_pairs_length
            (fun _ : ℕ =>
              if config.boundary_use_node_color then
                makeColorMsg sem.color config.boundary_alpha
              else makeColorMsg {} config.boundary_alpha)
            (fun _ : ℕ =>
              if config.boundary_use_node_color then
                makeColorMsg sem.color config.boundary_alpha
              else makeColorMsg {} config.boundary_alpha),
            h2]
  · intro m hok
    unfold makeLayerWireframeBoundingBoxes at hok
    refine (foldlM_except_inv MarkerEven _ ?_ layer.nodes _ m hok
      ⟨rfl, rfl⟩).parity
    intro s a s2 hsa hPs
    dsimp only at hsa
    cases hpf : passesFilter filter a with
    | false =>
      rw [hpf, if_pos (by decide)] at hsa
      cases hsa
      exact hPs
    | true =>
      rw [hpf, if_neg (by decide)] at hsa
      cases hatt : a.attrs.asSemantic with
      | error u =>
        rw [hatt] at hsa
        cases hsa
      | ok a2 =>
        rw [hatt] at hsa
        rw [show ∀ f : SemanticAttrs → Except Unit Marker,
            Except.ok a2 >>= f = f a2 from fun _ => rfl] at hsa
        rw [addWireframeToMarker_eq] at hsa
        cases hsa
        obtain ⟨h1, h2⟩ := hPs
        constructor
        · simp only [List.length_append]
          rw [flatMap_pairs_length
            (fun q : ℕ × ℕ => fillCornersFromBbox a2.bounding_box q.1)
            (fun q : ℕ × ℕ => fillCornersFromBbox a2.bounding_box q.2)]
          omega
        · simp only [List.length_append]
          rw [flatMap_pairs_length
            (fun q : ℕ × ℕ => fillCornersFromBbox a2.bounding_box q.1)
            (fun q : ℕ × ℕ => fillCornersFromBbox a2.bounding_box q.2),
            flatMap_pairs_length
            (fun _ : ℕ × ℕ =>
              makeColorMsg (func a) config.bounding_box_alpha)
            (fun _ : ℕ × ℕ =>
              makeColorMsg (func a) config.bounding_box_alpha),
            h2]
  · intro markers hok
    unfold makeGraphEdgeMarkers at hok
    cases hf : graph.interlayer_edges.foldlM
        (graphEdgeStep header configs visualizer_config ns_prefix filter
          graph) {} with
    | error u =>
      rw [hf] at hok
      cases hok
    | ok st =>
      rw [hf] at hok
      cases hok
      have hinv := graphEdgeFold_inv header configs visualizer_config
        ns_prefix filter graph graph.interlayer_edges [] {} st hf
        (EdgeInv_init graph configs filter)
      rw [List.nil_append] at hinv
      obtain ⟨hnodup, hL⟩ := hinv
      intro m hm
      obtain ⟨L, hLm⟩ := mem_snd_lookup st.layer_markers hnodup m hm
      have hE : 1 ≤ interEdgeCount graph configs filter L
          graph.interlayer_edges := by
        rcases Nat.eq_zero_or_pos (interEdgeCount graph configs filter L
          graph.interlayer_edges) with h0 | h1
        · obtain ⟨hnone, -⟩ := (hL L).1 h0
          rw [hnone] at hLm
          cases hLm
        · exact h1
      obtain ⟨m2, hm2, hlen, hcol, -⟩ := (hL L).2 hE
      have : m2 = m := by
        rw [hLm] at hm2
        cases hm2
        rfl
      subst this
      exact ⟨by rw [hlen]; omega, Or.inr (Or.inr hcol)⟩
  · intro m hm
    unfold makeDynamicGraphEdgeMarkers at hm
    have hfold := foldl_inv StateParity _
      (fun s a hP => dynamicStep_parity header configs dynamic_configs
        visualizer_config ns_prefix graph s a hP)
      graph.dynamic_interlayer_edges {}
      (fun x hx => absurd hx (List.not_mem_nil x))
    have h2 := hfold m hm
    exact ⟨h2.1, Or.inl (by rw [h2.2]; rfl)⟩
  · intro m hok
    exact (layerEdgeLoop_parity config layer visualizer_config color_func
      filter fuel 0 _ m hok ⟨rfl, rfl⟩).parity
  · intro m hok
    unfold makeMeshEdgesMarker at hok
    cases hmesh : graph.mesh with
    | none =>
      rw [hmesh] at hok
      cases hok
      exact ⟨rfl, Or.inl rfl⟩
    | some mesh =>
      rw [hmesh] at hok
      refine (foldlM_except_inv MarkerEven _ ?_ layer.nodes _ m hok
        ⟨rfl, rfl⟩).parity
      intro s a s2 hsa hPs
      dsimp only at hsa
      cases hatt : a.attrs.asPlace2d with
      | error u =>
        rw [hatt] at hsa
        cases hsa
      | ok sp =>
        obtain ⟨sem, p⟩ := sp
        rw [hatt] at hsa
        rw [show ∀ f : SemanticAttrs × Place2dAttrs → Except Unit Marker,
            Except.ok (sem, p) >>= f = f (sem, p) from fun _ => rfl] at hsa
        dsimp only at hsa
        by_cases hemp : p.pcl_mesh_connections.isEmpty = true
        · rw [if_pos hemp] at hsa
          cases hsa
          exact hPs
        · rw [if_neg hemp, meshFanStep_foldl] at hsa
          cases hsa
          obtain ⟨h1, h2⟩ := hPs
          constructor
          · simp only [List.length_append, List.length_cons, List.length_nil]
            have he := flatMap_length_even
              (fun q : ℕ × ℕ => meshFanPiece config visualizer_config mesh
                (meshCenterPoint config visualizer_config sem) q.1 q.2)
              (p.pcl_mesh_connections.enumFrom 0)
              (fun q _ => meshFanPiece_even config visualizer_config mesh
                (meshCenterPoint config visualizer_config sem) q.1 q.2)
            omega
          · simp only [List.length_append, List.length_cons, List.length_nil]
            rw [flatMap_length_congr
              (fun q : ℕ × ℕ => meshFanPiece config visualizer_config mesh
                (meshCenterPoint config visualizer_config sem) q.1 q.2)
              (fun q : ℕ × ℕ => meshFanColors config mesh
                (meshEdgeColor config sem) q.1 q.2)
              (p.pcl_mesh_connections.enumFrom 0)
              (fun q _ => (meshFanPiece_colors_length config
                visualizer_config mesh
                (meshCenterPoint config visualizer_config sem)
                (meshEdgeColor config sem) q.1 q.2)), h2]

/-- Witness for C9: concrete batches from every builder satisfy the shape
invariant. -/
theorem lineListBatch_shape_spec_witness :
    (∃ m, makeLayerEllipseBoundaries "h" {} layerC3 {} "e" cossinC3 = .ok m ∧
      MarkerParity m) ∧
    (∃ m, makeLayerPolygonBoundaries "h" {} layerC3 {} "p" = .ok m ∧
      MarkerParity m) ∧
    (∃ m, makeLayerWireframeBoundingBoxes "h" {} layerC3 {} "w"
      (fun _ => {}) none = .ok m ∧ MarkerParity m) ∧
    (∃ markers, makeGraphEdgeMarkers "h" witGraphC4 witConfigsC4 {} "g"
      none = .ok markers ∧ ∀ m ∈ markers, MarkerParity m) ∧
    (∀ m ∈ makeDynamicGraphEdgeMarkers "h" witGraphC4 witConfigsC4
      witDynConfigsC4 {} "d", MarkerParity m) ∧
    (∃ m, makeLayerEdgeMarkers 2 "h" {} cexLayerC6 {} "i"
      (fun _ _ _ _ => {}) none = some m ∧ MarkerParity m) ∧
    (∃ m, makeMeshEdgesMarker "h" {} {} graphC7empty layerC7 "m" = .ok m ∧
      MarkerParity m) := by
  refine ⟨?_, ?_, ?_, ?_, ?_, ?_, ?_⟩
  · have h1 : exceptOk (makeLayerEllipseBoundaries "h" {} layerC3 {} "e"
        cossinC3) = true := by decide
    cases hf : makeLayerEllipseBoundaries "h" {} layerC3 {} "e" cossinC3 with
    | error u =>
      rw [hf] at h1
      cases h1
    | ok m =>
      exact ⟨m, rfl, (lineListBatch_shape_spec "h" {} layerC3 {} "e" cossinC3
        (fun _ => {}) none witGraphC4 witConfigsC4 witDynConfigsC4 "g"
        (fun _ _ _ _ => {}) 2).1 m hf⟩
  · have h1 : exceptOk (makeLayerPolygonBoundaries "h" {} layerC3 {} "p") =
        true := by decide
    cases hf : makeLayerPolygonBoundaries "h" {} layerC3 {} "p" with
    | error u =>
      rw [hf] at h1
      cases h1
    | ok m =>
      exact ⟨m, rfl, (lineListBatch_shape_spec "h" {} layerC3 {} "p" cossinC3
        (fun _ => {}) none witGraphC4 witConfigsC4 witDynConfigsC4 "g"
        (fun _ _ _ _ => {}) 2).2.1 m hf⟩
  · have h1 : exceptOk (makeLayerWireframeBoundingBoxes "h" {} layerC3 {}
        "w" (fun _ => {}) none) = true := by decide
    cases hf : makeLayerWireframeBoundingBoxes "h" {} layerC3 {} "w"
        (fun _ => {}) none with
    | error u =>
      rw [hf] at h1
      cases h1
    | ok m =>
      exact ⟨m, rfl, (lineListBatch_shape_spec "h" {} layerC3 {} "w" cossinC3
        (fun _ => {}) none witGraphC4 witConfigsC4 witDynConfigsC4 "g"
        (fun _ _ _ _ => {}) 2).2.2.1 m hf⟩
  · have h1 : exceptOk (makeGraphEdgeMarkers "h" witGraphC4 witConfigsC4 {}
        "g" none) = true := by decide
    cases hf : makeGraphEdgeMarkers "h" witGraphC4 witConfigsC4 {} "g"
        none with
    | error u =>
      rw [hf] at h1
      cases h1
    | ok markers =>
      exact ⟨markers, rfl, (lineListBatch_shape_spec "h" {} layerC3 {} "g"
        cossinC3 (fun _ => {}) none witGraphC4 witConfigsC4 witDynConfigsC4
        "g" (fun _ _ _ _ => {}) 2).2.2.2.1 markers hf⟩
  · exact (lineListBatch_shape_spec "h" {} layerC3 {} "d" cossinC3
      (fun _ => {}) none witGraphC4 witConfigsC4 witDynConfigsC4 "d"
      (fun _ _ _ _ => {}) 2).2.2.2.2.1
  · have h1 : (makeLayerEdgeMarkers 2 "h" {} cexLayerC6 {} "i"
        (fun _ _ _ _ => {}) none).isSome = true := rfl
    cases hf : makeLayerEdgeMarkers 2 "h" {} cexLayerC6 {} "i"
        (fun _ _ _ _ => {}) none with
    | none =>
      rw [hf] at h1
      cases h1
    | some m =>
      exact ⟨m, rfl, (lineListBatch_shape_spec "h" {} cexLayerC6 {} "i"
        cossinC3 (fun _ => {}) none witGraphC4 witConfigsC4 witDynConfigsC4
        "g" (fun _ _ _ _ => {}) 2).2.2.2.2.2.1 m hf⟩
  · have h1 : exceptOk (makeMeshEdgesMarker "h" {} {} graphC7empty layerC7
        "m") = true := by decide
    cases hf : makeMeshEdgesMarker "h" {} {} graphC7empty layerC7 "m" with
    | error u =>
      rw [hf] at h1
      cases h1
    | ok m =>
      exact ⟨m, rfl, (lineListBatch_shape_spec "h" {} layerC7 {} "m" cossinC3
        (fun _ => {}) none graphC7empty witConfigsC4 witDynConfigsC4 "g"
        (fun _ _ _ _ => {}) 2).2.2.2.2.2.2 m hf⟩

end HydraViz
